import Mathlib

/-!
# VCR tester (`.ci/magician/vcr/tester.go`)

A shallow embedding of the result collector `collectResult` and of the test-run
scheduler (`NewTester`, `Run`, `RunParallel`, `runInParallel`, `makeLogPath`,
`googleTestDirectory`) of the magician VCR tester, followed by theorems about
them.

How the Go code is read:

* A Go string is a `String`; the regular expressions work on its list of runes.
  `sort.Strings` compares byte by byte, which on UTF-8 text is the order of
  `String`.
* A Go map is the list of its entries (`mapGet`, `mapSet`); a
  `map[string]struct{}` is the list of its keys. The order of a `range` loop
  over a map is chosen by the runtime: it is the parameter `RangeOrder`, any
  permutation of the keys.
* A Go `error` is an `Option Error`, `none` for nil.
* The interface `ExecRunner` and the type `provider.Version` are declared
  outside `tester.go`: the adapter is a parameter (`ExecRunner σ`, over any state
  `σ`), and so are the version type `V` and what the tester uses of other
  packages (`Externals V`). Calls of the adapter are threaded through a
  `World`, which also records them as `Event`s, oldest first.
* `Run` is split at its blank lines into `setupRun` (lines 205-241) and
  `testAndLog` (lines 243-308); `RunParallel` into `setupRunParallel` and
  `fanOutAndLog`, where the goroutines of lines 351-366 are run one after the
  other, in the order in which they are started.
-/

namespace Vcr

/-! ## Data model -/

/-- The `Result` struct (tester.go, lines 15-23). -/
structure Result where
  PassedTests : List String
  SkippedTests : List String
  FailedTests : List String
  PassedSubtests : List String
  SkippedSubtests : List String
  FailedSubtests : List String
  Panics : List String
  deriving DecidableEq, Repr

/-- The zero value `Result{}` returned on the error paths. -/
def Result.zero : Result := ⟨[], [], [], [], [], [], []⟩

/-- The type `Mode` with its two constants (tester.go, lines 25-30). -/
inductive Mode where
  | Replaying
  | Recording
  deriving DecidableEq, Repr

/-- The method `Mode.Lower` (tester.go, lines 34-42). -/
def Mode.Lower : Mode → String
  | .Replaying => "replaying"
  | .Recording => "recording"

/-- The function `strings.ToUpper`, on the runes of the text. -/
def stringsToUpper (s : String) : String := String.mk (s.toList.map Char.toUpper)

/-- The method `Mode.Upper` (tester.go, lines 44-46). -/
def Mode.Upper (m : Mode) : String := stringsToUpper m.Lower

/-! ## Regular expressions

The three expressions of the tester all have the shape `^body`, where `body`
needs no backtracking: literals, an alternation of three words, the greedy
`\w+` and the greedy `.*` are each followed by nothing that could make the
greedy choice fail. A `Regexp` is the flag of its `^` and a matcher for `body`
at the head of the remaining text, returning the submatches (whole match first).
-/

/-- The class `\w` of Go regular expressions: ASCII letters, digits and `_`. -/
def isWordChar (c : Char) : Bool := c.isAlphanum || c == '_'

/-- Matches the literal `lit` at the head of `s` and returns what follows it. -/
def dropLit : List Char → List Char → Option (List Char)
  | [], s => some s
  | _ :: _, [] => none
  | c :: cs, d :: ds => if c = d then dropLit cs ds else none

/-- The alternation `(PASS|FAIL|SKIP)` at the head of `s`: the matched word and the rest. -/
def matchStatus (s : List Char) : Option (String × List Char) :=
  match dropLit "PASS".toList s with
  | some r => some ("PASS", r)
  | none =>
    match dropLit "FAIL".toList s with
    | some r => some ("FAIL", r)
    | none =>
      match dropLit "SKIP".toList s with
      | some r => some ("SKIP", r)
      | none => none

/-- The group `(TestAcc\w+)` at the head of `s`: the matched name and the rest. -/
def matchTestName (s : List Char) : Option (String × List Char) :=
  match dropLit "TestAcc".toList s with
  | none => none
  | some r =>
    match r.takeWhile isWordChar with
    | [] => none
    | w => some ("TestAcc" ++ String.mk w, r.dropWhile isWordChar)

/-- A compiled expression `^body`: whether `^` stands under the flag `(?m)`, and
the matcher of `body`. -/
structure Regexp where
  multiline : Bool
  body : List Char → Option (List String)

/-- Body of `--- (PASS|FAIL|SKIP): (TestAcc\w+)`: submatches `[whole, status, name]`. -/
def testResultsBody (s : List Char) : Option (List String) :=
  match dropLit "--- ".toList s with
  | none => none
  | some s1 =>
    match matchStatus s1 with
    | none => none
    | some (kind, s2) =>
      match dropLit ": ".toList s2 with
      | none => none
      | some s3 =>
        match matchTestName s3 with
        | none => none
        | some (name, _) => some ["--- " ++ kind ++ ": " ++ name, kind, name]

/-- Body of `    --- (PASS|FAIL|SKIP): (TestAcc\w+)/(\w+)`: submatches
`[whole, status, test, subtest]`. -/
def subtestResultsBody (s : List Char) : Option (List String) :=
  match dropLit "    --- ".toList s with
  | none => none
  | some s1 =>
    match matchStatus s1 with
    | none => none
    | some (kind, s2) =>
      match dropLit ": ".toList s2 with
      | none => none
      | some s3 =>
        match matchTestName s3 with
        | none => none
        | some (name, s4) =>
          match dropLit "/".toList s4 with
          | none => none
          | some s5 =>
            match s5.takeWhile isWordChar with
            | [] => none
            | w =>
              some ["    --- " ++ kind ++ ": " ++ name ++ "/" ++ String.mk w,
                kind, name, String.mk w]

/-- Body of `panic: .*`: the dot matches every rune but the newline. -/
def testPanicBody (s : List Char) : Option (List String) :=
  match dropLit "panic: ".toList s with
  | none => none
  | some r => some ["panic: " ++ String.mk (r.takeWhile (fun c => c != '\n'))]

/-- The expression of line 70, compiled from
`(?m:^--- (PASS|FAIL|SKIP): (TestAcc\w+))`. -/
def testResultsExpression : Regexp := ⟨true, testResultsBody⟩

/-- The expression of line 72, compiled from
`(?m:^    --- (PASS|FAIL|SKIP): (TestAcc\w+)/(\w+))`. -/
def subtestResultsExpression : Regexp := ⟨true, subtestResultsBody⟩

/-- The expression of line 74, compiled from `^panic: .*`: no `(?m)` flag, so
its `^` matches at the beginning of the text only. -/
def testPanicExpression : Regexp := ⟨false, testPanicBody⟩

/-- The scan of `FindAll`: successive non-overlapping matches, left to right.
`skip` counts the runes still covered by the previous match, `bol` tells whether
`^` matches at the current position: at the start of the text, and after a
newline when the expression is multiline. -/
def findFrom (re : Regexp) : Nat → Bool → List Char → List (List String)
  | _, _, [] => []
  | skip + 1, _, c :: cs => findFrom re skip (re.multiline && c == '\n') cs
  | 0, bol, c :: cs =>
    match (if bol then re.body (c :: cs) else none) with
    | some m => m :: findFrom re ((m.headD "").length - 1) (re.multiline && c == '\n') cs
    | none => findFrom re 0 (re.multiline && c == '\n') cs

/-- The method `FindAllStringSubmatch(s, -1)`. -/
def Regexp.FindAllStringSubmatch (re : Regexp) (s : String) : List (List String) :=
  findFrom re 0 true s.toList

/-- The method `FindAllString(s, -1)`: the whole match of every submatch list. -/
def Regexp.FindAllString (re : Regexp) (s : String) : List String :=
  (re.FindAllStringSubmatch s).map (fun m => m.headD "")

/-! ## Sets, iteration order and sorting -/

/-- The order in which a `range` loop visits the keys of a Go map: some
permutation of the keys, chosen by the runtime. -/
structure RangeOrder where
  iter : List String → List String
  perm : ∀ keys, (iter keys).Perm keys

/-- The order that visits the keys as they were inserted. -/
def RangeOrder.insertion : RangeOrder := ⟨fun keys => keys, fun _ => List.Perm.refl _⟩

/-- The order that visits the keys last inserted first. -/
def RangeOrder.reversed : RangeOrder := ⟨List.reverse, List.reverse_perm⟩

/-- A `map[string]struct{}`: its keys, without repetition. `add` is the
assignment `set[name] = struct{}{}`. -/
def setAdd (set : List String) (name : String) : List String :=
  if name ∈ set then set else set ++ [name]

/-- A `map[string]map[string]struct{}`; a kind that was never assigned holds the
nil map, which a `range` loop visits zero times. `addResult` is lines 609-612
(and 621-624): create the inner set when absent, then add the name. -/
def addResult (sets : String → List String) (kind name : String) : String → List String :=
  fun k => if k = kind then setAdd (sets k) name else sets k

/-- Comparison of Go strings, decided on the lists of runes. -/
instance strLEDecidable : DecidableRel (fun a b : String => a ≤ b) :=
  fun _ _ => decidable_of_iff _ String.le_iff_toList_le.symm

/-- The function `sort.Strings`: the ascending rearrangement of the slice. -/
def sortStrings (l : List String) : List String :=
  @List.insertionSort String (fun a b => a ≤ b) strLEDecidable l

/-! ## The result collector -/

/-- The loop of lines 604-613: a match with three submatches adds its name to
the set of its status, any other match is skipped with a warning. -/
def collectTests (found : List (List String)) : String → List String :=
  found.foldl
    (fun sets submatches =>
      match submatches with
      | [_, kind, name] => addResult sets kind name
      | _ => sets)
    (fun _ => [])

/-- The loop of lines 616-625: a match with four submatches adds the qualified
name `test__subtest` to the set of its status. -/
def collectSubtests (found : List (List String)) : String → List String :=
  found.foldl
    (fun sets submatches =>
      match submatches with
      | [_, kind, test, subtest] => addResult sets kind (test ++ "__" ++ subtest)
      | _ => sets)
    (fun _ => [])

/-- The function `collectResult` (tester.go, lines 601-649). -/
def collectResult (ro : RangeOrder) (output : String) : Result :=
  let resultSets := collectTests (testResultsExpression.FindAllStringSubmatch output)
  let subtestResultSets := collectSubtests (subtestResultsExpression.FindAllStringSubmatch output)
  let panics := sortStrings (testPanicExpression.FindAllString output)
  let results := fun kind => sortStrings (ro.iter (resultSets kind))
  let subtestResults := fun kind => sortStrings (ro.iter (subtestResultSets kind))
  { FailedTests := results "FAIL"
    PassedTests := results "PASS"
    SkippedTests := results "SKIP"
    FailedSubtests := subtestResults "FAIL"
    PassedSubtests := subtestResults "PASS"
    SkippedSubtests := subtestResults "SKIP"
    Panics := panics }

/-- The lines of a text: the pieces between its newlines. -/
def textLines (output : String) : List String :=
  (output.toList.splitOn '\n').map String.mk

/-- The piece of a text before its first newline. -/
def firstLine (s : List Char) : List Char := s.takeWhile (fun c => c != '\n')

/-- What the scan needs to know of the body of an expression: a match is decided
by the current line alone, the whole match is the text it was found at the head
of, and the empty text has no match. -/
structure LineLocal (body : List Char → Option (List String)) : Prop where
  onLine : ∀ s, body s = body (firstLine s)
  matched : ∀ s m, body s = some m → (m.headD "").toList <+: s
  nonempty : body [] = none

/-- A word: one or more runes of the class `\w`. -/
def IsWord (w : String) : Prop := w.toList ≠ [] ∧ ∀ c ∈ w.toList, isWordChar c = true

/-- A name captured by `(TestAcc\w+)`: `TestAcc` followed by a word. -/
def IsTestName (name : String) : Prop := ∃ w : String, IsWord w ∧ name = "TestAcc" ++ w

/-- What may follow a greedy `\w+` match on its line: nothing, or text that
starts with a rune outside `\w`. -/
def EndsWord (rest : String) : Prop := ∀ c ∈ rest.toList.head?, isWordChar c = false

/-- Whether a text may follow a word is decided on its first rune. -/
instance EndsWord.decidable (rest : String) : Decidable (EndsWord rest) :=
  inferInstanceAs (Decidable (∀ c ∈ rest.toList.head?, isWordChar c = false))

/-- One of the three statuses of the expressions. -/
def IsStatus (kind : String) : Prop := kind = "PASS" ∨ kind = "FAIL" ∨ kind = "SKIP"

/-- A top-level marker line: `--- kind: name`, then the end of the line or text
that starts outside `\w`, such as the duration ` (0.00s)` printed by `go test`. -/
def IsTestMarker (kind name line : String) : Prop :=
  ∃ rest : String, EndsWord rest ∧ line = "--- " ++ kind ++ ": " ++ name ++ rest

/-- A subtest marker line: four spaces, `--- kind: test/sub`, then the end of
the line or text that starts outside `\w`. -/
def IsSubtestMarker (kind test sub line : String) : Prop :=
  ∃ rest : String, EndsWord rest ∧ line = "    --- " ++ kind ++ ": " ++ test ++ "/" ++ sub ++ rest

/-- The top-level list of a status in a `Result`. -/
def Result.tests (r : Result) (kind : String) : List String :=
  if kind = "PASS" then r.PassedTests
  else if kind = "FAIL" then r.FailedTests
  else if kind = "SKIP" then r.SkippedTests
  else []

/-- The subtest list of a status in a `Result`. -/
def Result.subtests (r : Result) (kind : String) : List String :=
  if kind = "PASS" then r.PassedSubtests
  else if kind = "FAIL" then r.FailedSubtests
  else if kind = "SKIP" then r.SkippedSubtests
  else []

/-- The text made of the given lines, a newline between two consecutive ones. -/
def unlines (lines : List String) : String :=
  String.mk (List.intercalate ['\n'] (lines.map String.toList))

/-! ## Maps, errors and the execution adapter -/

/-- A Go `error` that is not nil, by its message; `Option Error` is a Go `error`. -/
abbrev Error := String

/-- The read `m[k]` of a Go map kept as the list of its entries: the value and
whether the key is present. -/
def mapGet {κ ν : Type} [DecidableEq κ] : List (κ × ν) → κ → Option ν
  | [], _ => none
  | (k1, v) :: m, k => if k1 = k then some v else mapGet m k

/-- The assignment `m[k] = v` of a Go map: replaces the entry of `k`, or adds one. -/
def mapSet {κ ν : Type} [DecidableEq κ] : List (κ × ν) → κ → ν → List (κ × ν)
  | [], k, v => [(k, v)]
  | (k1, v1) :: m, k, v => if k1 = k then (k, v) :: m else (k1, v1) :: mapSet m k v

/-- The pairs visited by `for k, v := range m`: the keys of `m` in the order of
the runtime, each with the value `m[k]`. -/
def rangeMap (ro : RangeOrder) (m : List (String × String)) : List (String × String) :=
  (ro.iter (m.map Prod.fst)).map (fun k => (k, (mapGet m k).getD ""))

/-- What the tester uses from other packages: the method `String` of
`provider.Version`, the function `filepath.Join`, and the text that the verb
`%v` of `fmt` prints for the map `repoPaths`. -/
structure Externals (V : Type) where
  versionString : V → String
  join : List String → String
  showPaths : List (V × String) → String

/-- The interface `ExecRunner`, as far as the tester calls it: every method
takes the state of the adapter and returns its results with the next state. -/
structure ExecRunner (σ : Type) where
  GetCWD : σ → String
  Mkdir : String → σ → Option Error × σ
  PushDir : String → σ → Option Error × σ
  PopDir : σ → Option Error × σ
  ReadFile : String → σ → (String × Option Error) × σ
  WriteFile : String → String → σ → Option Error × σ
  RemoveAll : String → σ → Option Error × σ
  Run : String → List String → Option (List (String × String)) → σ →
    (String × Option Error) × σ

/-- What a call of the tester does that can be observed from outside: its calls
of the execution adapter, each with what it returned, and what it prints. -/
inductive Event where
  | Mkdir (path : String) (err : Option Error)
  | PushDir (path : String) (err : Option Error)
  | PopDir (err : Option Error)
  | ReadFile (path : String) (content : String) (err : Option Error)
  | WriteFile (path content : String) (err : Option Error)
  | RemoveAll (path : String) (err : Option Error)
  | Run (name : String) (args : List String) (env : Option (List (String × String)))
      (output : String) (err : Option Error)
  | Print (text : String)
  deriving DecidableEq, Repr

/-- The state of the execution adapter and the events so far, oldest first. -/
structure World (σ : Type) where
  state : σ
  events : List Event

/-- A world in which nothing has happened yet. -/
def World.start {σ : Type} (s : σ) : World σ := ⟨s, []⟩

/-- Call of `rnr.Mkdir`. -/
def World.Mkdir {σ : Type} (w : World σ) (rnr : ExecRunner σ) (path : String) :
    Option Error × World σ :=
  let r := rnr.Mkdir path w.state
  (r.1, ⟨r.2, w.events ++ [Event.Mkdir path r.1]⟩)

/-- Call of `rnr.PushDir`. -/
def World.PushDir {σ : Type} (w : World σ) (rnr : ExecRunner σ) (path : String) :
    Option Error × World σ :=
  let r := rnr.PushDir path w.state
  (r.1, ⟨r.2, w.events ++ [Event.PushDir path r.1]⟩)

/-- Call of `rnr.PopDir`. -/
def World.PopDir {σ : Type} (w : World σ) (rnr : ExecRunner σ) : Option Error × World σ :=
  let r := rnr.PopDir w.state
  (r.1, ⟨r.2, w.events ++ [Event.PopDir r.1]⟩)

/-- Call of `rnr.ReadFile`. -/
def World.ReadFile {σ : Type} (w : World σ) (rnr : ExecRunner σ) (path : String) :
    (String × Option Error) × World σ :=
  let r := rnr.ReadFile path w.state
  (r.1, ⟨r.2, w.events ++ [Event.ReadFile path r.1.1 r.1.2]⟩)

/-- Call of `rnr.WriteFile`. -/
def World.WriteFile {σ : Type} (w : World σ) (rnr : ExecRunner σ) (path content : String) :
    Option Error × World σ :=
  let r := rnr.WriteFile path content w.state
  (r.1, ⟨r.2, w.events ++ [Event.WriteFile path content r.1]⟩)

/-- Call of `rnr.RemoveAll`. -/
def World.RemoveAll {σ : Type} (w : World σ) (rnr : ExecRunner σ) (path : String) :
    Option Error × World σ :=
  let r := rnr.RemoveAll path w.state
  (r.1, ⟨r.2, w.events ++ [Event.RemoveAll path r.1]⟩)

/-- Call of `rnr.Run`. -/
def World.Run {σ : Type} (w : World σ) (rnr : ExecRunner σ) (name : String)
    (args : List String) (env : Option (List (String × String))) :
    (String × Option Error) × World σ :=
  let r := rnr.Run name args env w.state
  (r.1, ⟨r.2, w.events ++ [Event.Run name args env r.1.1 r.1.2]⟩)

/-- Call of `fmt.Printf`. -/
def World.Print {σ : Type} (w : World σ) (text : String) : World σ :=
  ⟨w.state, w.events ++ [Event.Print text]⟩

/-! ## The tester -/

/-- The struct `Tester` (tester.go, lines 53-63), without its field `rnr`: the
execution adapter is passed along with its state. -/
structure Tester (V : Type) where
  env : List (String × String)
  cassetteBucket : String
  logBucket : String
  baseDir : String
  saKeyPath : String
  cassettePaths : List (V × String)
  logPaths : List ((Mode × V) × String)
  repoPaths : List (V × String)

/-- The struct `RunOptions` (tester.go, lines 195-200). -/
structure RunOptions (V : Type) where
  Mode : Mode
  Version : V
  TestDirs : List String
  Tests : List String

/-- The constant of line 65. -/
def accTestParallelism : Nat := 32

/-- The constant of line 66. -/
def parallelJobs : Nat := 16

/-- The constant of line 68. -/
def replayingTimeout : String := "240m"

/-- The allow-list `safeToLog` (tester.go, lines 76-115). -/
def safeToLogTable : List (String × Bool) :=
  [("ACCTEST_PARALLELISM", true), ("COMMIT_SHA", true), ("GITHUB_TOKEN", false),
    ("GITHUB_TOKEN_CLASSIC", false), ("GITHUB_TOKEN_DOWNSTREAMS", false),
    ("GITHUB_TOKEN_MAGIC_MODULES", false), ("GOCACHE", true),
    ("GOOGLE_APPLICATION_CREDENTIALS", false), ("GOOGLE_BILLING_ACCOUNT", false),
    ("GOOGLE_CHRONICLE_INSTANCE_ID", true), ("GOOGLE_CREDENTIALS", false),
    ("GOOGLE_CUST_ID", true), ("GOOGLE_IDENTITY_USER", true),
    ("GOOGLE_MASTER_BILLING_ACCOUNT", false), ("GOOGLE_ORG", true), ("GOOGLE_ORG_2", true),
    ("GOOGLE_ORG_DOMAIN", true), ("GOOGLE_PROJECT", true), ("GOOGLE_PROJECT_NUMBER", true),
    ("GOOGLE_PUBLIC_AVERTISED_PREFIX_DESCRIPTION", true), ("GOOGLE_REGION", true),
    ("GOOGLE_SERVICE_ACCOUNT", true), ("GOOGLE_TEST_DIRECTORY", true),
    ("GOOGLE_VMWAREENGINE_PROJECT", true), ("GOOGLE_ZONE", true), ("GOPATH", true),
    ("HOME", true), ("PATH", true), ("SA_KEY", false), ("TF_ACC", true), ("TF_LOG", true),
    ("TF_LOG_CORE", true), ("TF_LOG_PATH_MASK", true), ("TF_LOG_SDK_FRAMEWORK", true),
    ("TF_SCHEMA_PANIC_ON_ERROR", true), ("USER", true), ("VCR_MODE", true),
    ("VCR_PATH", true)]

/-- The read `safeToLog[ev]`: `false` for a key that the map does not hold. -/
def safeToLog (ev : String) : Bool := (mapGet safeToLogTable ev).getD false

/-- The function `NewTester` (tester.go, lines 118-137): the new tester, or the
error of writing the key file. -/
def NewTester {σ V : Type} (rnr : ExecRunner σ) (env : List (String × String))
    (cassetteBucket logBucket : String) (w : World σ) :
    (Option (Tester V) × Option Error) × World σ :=
  let mk := fun (saKeyPath : String) (w1 : World σ) =>
    ((some { env := env, cassetteBucket := cassetteBucket, logBucket := logBucket,
             baseDir := rnr.GetCWD w1.state, saKeyPath := saKeyPath, cassettePaths := [],
             logPaths := [], repoPaths := [] }, none), w1)
  match mapGet env "SA_KEY" with
  | some saKeyVal =>
    match w.WriteFile rnr "sa_key.json" saKeyVal with
    | (some err, w1) => ((none, some err), w1)
    | (none, w1) => mk "sa_key.json" w1
  | none => mk "" w

/-- The method `SetRepoPath` (tester.go, lines 139-141). -/
def SetRepoPath {V : Type} [DecidableEq V] (vt : Tester V) (version : V) (repoPath : String) :
    Tester V :=
  { vt with repoPaths := mapSet vt.repoPaths version repoPath }

/-- The method `makeLogPath` (tester.go, lines 443-455). -/
def makeLogPath {σ V : Type} [DecidableEq V] (x : Externals V) (rnr : ExecRunner σ)
    (vt : Tester V) (mode : Mode) (version : V) (w : World σ) :
    (String × Option Error) × Tester V × World σ :=
  match mapGet vt.logPaths (mode, version) with
  | some logPath => ((logPath, none), vt, w)
  | none =>
    let logPath := x.join [vt.baseDir, "testlogs", mode.Lower, x.versionString version]
    match w.Mkdir rnr logPath with
    | (some err, w1) => (("", some err), vt, w1)
    | (none, w1) =>
      ((logPath, none), { vt with logPaths := mapSet vt.logPaths (mode, version) logPath }, w1)

/-- The function `strings.Contains`. -/
def stringsContains (s substr : String) : Bool := decide (substr.toList <:+: s.toList)

/-- The method `googleTestDirectory` (tester.go, lines 566-578). -/
def googleTestDirectory {σ : Type} (rnr : ExecRunner σ) (w : World σ) :
    (List String × Option Error) × World σ :=
  match w.Run rnr "go" ["list", "./..."] none with
  | ((_, some err), w1) => (([], some err), w1)
  | ((allPackages, none), w1) =>
    (((textLines allPackages).filter (fun dir =>
        !stringsContains dir "github.com/hashicorp/terraform-provider-google-beta/scripts"),
      none), w1)

/-- Lines 210-224 of `Run` (and 319-332 of `RunParallel`): the repository of the
version is entered and, when no test directory was given, the packages are
listed. Returns the test directories. -/
def enterRepo {σ V : Type} [DecidableEq V] (x : Externals V) (rnr : ExecRunner σ)
    (vt : Tester V) (opt : RunOptions V) (w : World σ) :
    (List String × Option Error) × World σ :=
  match mapGet vt.repoPaths opt.Version with
  | none =>
    (([], some ("no repo cloned for version " ++ x.versionString opt.Version ++ " in " ++
      x.showPaths vt.repoPaths)), w)
  | some repoPath =>
    match w.PushDir rnr repoPath with
    | (some err, w1) => (([], some err), w1)
    | (none, w1) =>
      if opt.TestDirs.length = 0 then googleTestDirectory rnr w1
      else ((opt.TestDirs, none), w1)

/-- Lines 226-241 of `Run` (and 334-349 of `RunParallel`), the fixture-directory
step: the cassette path of the run, by mode. -/
def cassetteStep {σ V : Type} [DecidableEq V] (x : Externals V) (rnr : ExecRunner σ)
    (vt : Tester V) (opt : RunOptions V) (w : World σ) :
    (String × Option Error) × Tester V × World σ :=
  let cassettePath := x.join [vt.baseDir, "cassettes", x.versionString opt.Version]
  match opt.Mode with
  | Mode.Replaying =>
    match mapGet vt.cassettePaths opt.Version with
    | none =>
      (("", some ("cassettes not fetched for version " ++ x.versionString opt.Version)), vt, w)
    | some fetched => ((fetched, none), vt, w)
  | Mode.Recording =>
    match w.RemoveAll rnr cassettePath with
    | (some err, w1) => ((cassettePath, some ("error removing cassettes: " ++ err)), vt, w1)
    | (none, w1) =>
      match w1.Mkdir rnr cassettePath with
      | (some err, w2) =>
        ((cassettePath, some ("error creating cassette dir: " ++ err)), vt, w2)
      | (none, w2) =>
        ((cassettePath, none),
          { vt with cassettePaths := mapSet vt.cassettePaths opt.Version cassettePath }, w2)

/-- The arguments of `go` built by `Run` (tester.go, lines 243-254). -/
def runArgs (testDirs : List String) : List String :=
  ["test"] ++ testDirs ++
    ["-parallel", toString accTestParallelism, "-v", "-run=TestAcc", "-timeout",
      replayingTimeout,
      "-ldflags=-X=github.com/hashicorp/terraform-provider-google-beta/version.ProviderVersion=acc",
      "-vet=off"]

/-- The arguments of `go` built by `runInParallel` (tester.go, lines 391-402). -/
def parallelArgs (testDir test : String) : List String :=
  ["test", testDir, "-parallel", "1", "-v", "-run=" ++ test ++ "$", "-timeout",
    replayingTimeout,
    "-ldflags=-X=github.com/hashicorp/terraform-provider-google-beta/version.ProviderVersion=acc",
    "-vet=off"]

/-- The map literal of lines 255-267 (and 403-415): the two literals differ in
the values of `ACCTEST_PARALLELISM` and `GOOGLE_TEST_DIRECTORY` only. -/
def builtinEnv {V : Type} (x : Externals V) (vt : Tester V) (mode : Mode)
    (cassettePath parallelism testDirectory logPath : String) : List (String × String) :=
  [("VCR_PATH", cassettePath),
    ("VCR_MODE", mode.Upper),
    ("ACCTEST_PARALLELISM", parallelism),
    ("GOOGLE_CREDENTIALS", (mapGet vt.env "SA_KEY").getD ""),
    ("GOOGLE_TEST_DIRECTORY", testDirectory),
    ("TF_LOG", "DEBUG"),
    ("TF_LOG_CORE", "WARN"),
    ("TF_LOG_SDK_FRAMEWORK", "INFO"),
    ("TF_LOG_PATH_MASK", x.join [logPath, "%s.log"]),
    ("TF_ACC", "1"),
    ("TF_SCHEMA_PANIC_ON_ERROR", "1")]

/-- Lines 268-270 (and 416-418): the key file, when one was written. -/
def withCredentials {V : Type} (x : Externals V) (vt : Tester V)
    (env : List (String × String)) : List (String × String) :=
  if vt.saKeyPath ≠ "" then
    mapSet env "GOOGLE_APPLICATION_CREDENTIALS" (x.join [vt.baseDir, vt.saKeyPath])
  else env

/-- Lines 255-273 (and 403-421): the environment of the child process. The last
loop copies every entry of `vt.env` into it. -/
def childEnv {V : Type} (x : Externals V) (ro : RangeOrder) (vt : Tester V) (mode : Mode)
    (cassettePath parallelism testDirectory logPath : String) : List (String × String) :=
  (rangeMap ro vt.env).foldl (fun env p => mapSet env p.1 p.2)
    (withCredentials x vt (builtinEnv x vt mode cassettePath parallelism testDirectory logPath))

/-- The line that the loop of lines 275-280 adds for one variable. -/
def echoLine (ev val : String) : String :=
  ev ++ "=" ++ (if safeToLog ev then val else "{hidden}") ++ "\n"

/-- The text `printedEnv` of lines 274-280. -/
def printedEnv (ro : RangeOrder) (env : List (String × String)) : String :=
  (rangeMap ro env).foldl (fun printed p => printed ++ echoLine p.1 p.2) ""

/-- The text printed by lines 281-286. -/
def runEcho (ro : RangeOrder) (env : List (String × String)) (args : List String) : String :=
  "Running go:\n\tenv:\n" ++ printedEnv ro env ++ "\n\targs:\n" ++ String.intercalate " " args ++
    "\n"

/-- The text written to the log in place of the output when the child process
returned an error (lines 288-291 and 424-427). -/
def errorOutput (mode : Mode) (testErr : Error) : String :=
  "Error " ++ mode.Lower ++ " tests:\n" ++ testErr

/-- What the set-up of a run hands to the rest of it. -/
structure RunContext where
  logPath : String
  testDirs : List String
  cassettePath : String

/-- Lines 205-241 of `Run`, its set-up: the log path, the repository, the test
directories and the cassette path, or the error that ends the call. -/
def setupRun {σ V : Type} [DecidableEq V] (x : Externals V) (rnr : ExecRunner σ)
    (vt : Tester V) (opt : RunOptions V) (w : World σ) :
    Except Error RunContext × Tester V × World σ :=
  match makeLogPath x rnr vt opt.Mode opt.Version w with
  | ((_, some err), vt1, w1) => (Except.error err, vt1, w1)
  | ((logPath, none), vt1, w1) =>
    match enterRepo x rnr vt1 opt w1 with
    | ((_, some err), w2) => (Except.error err, vt1, w2)
    | ((testDirs, none), w2) =>
      match cassetteStep x rnr vt1 opt w2 with
      | ((_, some err), vt2, w3) => (Except.error err, vt2, w3)
      | ((cassettePath, none), vt2, w3) =>
        (Except.ok ⟨logPath, testDirs, cassettePath⟩, vt2, w3)

/-- The text that `Run` logs and parses: the output of the child process, or
the text that stands for its error. -/
def loggedOutput (mode : Mode) (out : String) (testErr : Option Error) : String :=
  match testErr with
  | some e => errorOutput mode e
  | none => out

/-- The content that `Run` writes to the cumulative log (lines 300-304): the
previous content, a newline when it is not empty, and the output. -/
def appendLog (previous output : String) : String :=
  (if previous ≠ "" then previous ++ "\n" else previous) ++ output

/-- Lines 243-308 of `Run`: the child process is launched, the repository is
left, the log is written and the output is parsed. -/
def testAndLog {σ V : Type} (x : Externals V) (rnr : ExecRunner σ) (ro : RangeOrder)
    (vt : Tester V) (mode : Mode) (ctx : RunContext) (w : World σ) :
    (Result × Option Error) × World σ :=
  let args := runArgs ctx.testDirs
  let env := childEnv x ro vt mode ctx.cassettePath (toString accTestParallelism)
    (String.intercalate " " ctx.testDirs) ctx.logPath
  let w1 := w.Print (runEcho ro env args)
  match w1.Run rnr "go" args (some env) with
  | ((out, testErr), w2) =>
    let output := loggedOutput mode out testErr
    match w2.PopDir rnr with
    | (some err, w3) => ((Result.zero, some err), w3)
    | (none, w3) =>
      let logFileName := x.join [vt.baseDir, "testlogs", mode.Lower ++ "_test.log"]
      match w3.ReadFile rnr logFileName with
      | ((previous, _), w4) =>
        let allOutput := appendLog previous output
        match w4.WriteFile rnr logFileName allOutput with
        | (some err, w5) =>
          ((Result.zero,
            some ("error writing log: " ++ err ++ ", test output: " ++ allOutput)), w5)
        | (none, w5) => ((collectResult ro output, testErr), w5)

/-- The method `Run` (tester.go, lines 204-309): the result, the error, the
tester and the world after the call. -/
def Run {σ V : Type} [DecidableEq V] (x : Externals V) (rnr : ExecRunner σ) (ro : RangeOrder)
    (vt : Tester V) (opt : RunOptions V) (w : World σ) :
    (Result × Option Error) × Tester V × World σ :=
  match setupRun x rnr vt opt w with
  | (Except.error err, vt2, w3) => ((Result.zero, some err), vt2, w3)
  | (Except.ok ctx, vt2, w3) =>
    ((testAndLog x rnr ro vt2 opt.Mode ctx w3).1, vt2,
      (testAndLog x rnr ro vt2 opt.Mode ctx w3).2)

/-- The method `runInParallel` (tester.go, lines 390-441) as one step: what it
sends on `outputs`, what it sends on `errs`, and the world after it. -/
def runInParallel {σ V : Type} (x : Externals V) (rnr : ExecRunner σ) (ro : RangeOrder)
    (vt : Tester V) (mode : Mode) (testDir test logPath cassettePath : String) (w : World σ) :
    (String × List Error) × World σ :=
  let args := parallelArgs testDir test
  let env := childEnv x ro vt mode cassettePath "1" testDir logPath
  match w.Run rnr "go" args (some env) with
  | ((out, testErr), w1) =>
    let output := loggedOutput mode out testErr
    let logFileName := x.join [vt.baseDir, "testlogs", mode.Lower ++ "_build",
      test ++ "_" ++ mode.Lower ++ "_test.log"]
    match w1.ReadFile rnr logFileName with
    | ((previousLog, _), w2) =>
      let logged := if previousLog ≠ "" then previousLog ++ "\n" ++ output else output
      match w2.WriteFile rnr logFileName logged with
      | (some err, w3) =>
        ((out, testErr.toList ++ ["error writing log: " ++ err ++ ", test output: " ++ logged]),
          w3)
      | (none, w3) => ((out, testErr.toList), w3)

/-- The jobs of `RunParallel` in the order of the loops of lines 356-361. -/
def parallelJobsOf (testDirs tests : List String) : List (String × String) :=
  testDirs.flatMap (fun testDir => tests.map (fun test => (testDir, test)))

/-- Lines 351-366 of `RunParallel` in the schedule where every job ends before
the next one is started: what the channels `outputs` and `errs` hold when they
are closed, and the world after the jobs. -/
def runJobs {σ V : Type} (x : Externals V) (rnr : ExecRunner σ) (ro : RangeOrder)
    (vt : Tester V) (mode : Mode) (logPath cassettePath : String) :
    List (String × String) → World σ → (List String × List Error) × World σ
  | [], w => (([], []), w)
  | (testDir, test) :: jobs, w =>
    match runInParallel x rnr ro vt mode testDir test logPath cassettePath w with
    | ((out, errs), w1) =>
      match runJobs x rnr ro vt mode logPath cassettePath jobs w1 with
      | ((outs, errs2), w2) => ((out :: outs, errs ++ errs2), w2)

/-- Lines 312-349 of `RunParallel`, its set-up: that of `Run` with the directory
of the per-test logs created after the log path. -/
def setupRunParallel {σ V : Type} [DecidableEq V] (x : Externals V) (rnr : ExecRunner σ)
    (vt : Tester V) (opt : RunOptions V) (w : World σ) :
    Except Error RunContext × Tester V × World σ :=
  match makeLogPath x rnr vt opt.Mode opt.Version w with
  | ((_, some err), vt1, w1) => (Except.error err, vt1, w1)
  | ((logPath, none), vt1, w1) =>
    match w1.Mkdir rnr (x.join [vt1.baseDir, "testlogs", opt.Mode.Lower ++ "_build"]) with
    | (some err, w2) => (Except.error err, vt1, w2)
    | (none, w2) =>
      match enterRepo x rnr vt1 opt w2 with
      | ((_, some err), w3) => (Except.error err, vt1, w3)
      | ((testDirs, none), w3) =>
        match cassetteStep x rnr vt1 opt w3 with
        | ((_, some err), vt2, w4) => (Except.error err, vt2, w4)
        | ((cassettePath, none), vt2, w4) =>
          (Except.ok ⟨logPath, testDirs, cassettePath⟩, vt2, w4)

/-- Lines 351-387 of `RunParallel`, its jobs run one after the other: the jobs,
the way out of the repository, the log and the parsed output. -/
def fanOutAndLog {σ V : Type} (x : Externals V) (rnr : ExecRunner σ) (ro : RangeOrder)
    (vt : Tester V) (mode : Mode) (tests : List String) (ctx : RunContext) (w : World σ) :
    (Result × Option Error) × World σ :=
  match runJobs x rnr ro vt mode ctx.logPath ctx.cassettePath
      (parallelJobsOf ctx.testDirs tests) w with
  | ((outputs, errs), w1) =>
    match w1.PopDir rnr with
    | (some err, w2) => ((Result.zero, some err), w2)
    | (none, w2) =>
      let output := String.join outputs
      let logFileName := x.join [vt.baseDir, "testlogs", mode.Lower ++ "_test.log"]
      match w2.WriteFile rnr logFileName output with
      | (some err, w3) => ((Result.zero, some err), w3)
      | (none, w3) => ((collectResult ro output, errs.head?), w3)

/-- The method `RunParallel` (tester.go, lines 311-388). -/
def RunParallel {σ V : Type} [DecidableEq V] (x : Externals V) (rnr : ExecRunner σ)
    (ro : RangeOrder) (vt : Tester V) (opt : RunOptions V) (w : World σ) :
    (Result × Option Error) × Tester V × World σ :=
  match setupRunParallel x rnr vt opt w with
  | (Except.error err, vt2, w3) => ((Result.zero, some err), vt2, w3)
  | (Except.ok ctx, vt2, w3) =>
    ((fanOutAndLog x rnr ro vt2 opt.Mode opt.Tests ctx w3).1, vt2,
      (fanOutAndLog x rnr ro vt2 opt.Mode opt.Tests ctx w3).2)

/-- Whether an event is the launch of a `go test` child process. -/
def Event.isTestRun : Event → Bool
  | Event.Run name args _ _ _ => decide (name = "go" ∧ args.head? = some "test")
  | _ => false

/-- Whether an event is a call of `RemoveAll`. -/
def Event.isRemoveAll : Event → Bool
  | Event.RemoveAll _ _ => true
  | _ => false

/-- Whether an event belongs to the set-up of a run: creating a directory,
entering the repository, listing the packages, clearing the cassettes. -/
def Event.isSetup : Event → Bool
  | Event.Mkdir _ _ => true
  | Event.PushDir _ _ => true
  | Event.RemoveAll _ _ => true
  | Event.Run _ args env _ _ => decide (args = ["list", "./..."] ∧ env = none)
  | _ => false

/-- The shape of the outcome `r` of a set-up (of `Run` or of `RunParallel`): some
events `pre` that clear nothing, then either an error, or the fixture-directory
step, whose outcome decides. -/
def SetupOutcome {σ V : Type} [DecidableEq V] (x : Externals V) (rnr : ExecRunner σ)
    (vt : Tester V) (opt : RunOptions V) (w : World σ)
    (r : Except Error RunContext × Tester V × World σ) : Prop :=
  ∃ (pre : List Event) (vt1 : Tester V),
    (∀ e ∈ pre, e.isSetup = true ∧ e.isRemoveAll = false) ∧
    vt1.env = vt.env ∧ vt1.baseDir = vt.baseDir ∧ vt1.saKeyPath = vt.saKeyPath ∧
    vt1.cassettePaths = vt.cassettePaths ∧
    ((∃ err s, r = (Except.error err, vt1, ⟨s, w.events ++ pre⟩)) ∨
      (∃ lp dirs s, r =
        match cassetteStep x rnr vt1 opt ⟨s, w.events ++ pre⟩ with
        | ((_, some err), vt2, w3) => (Except.error err, vt2, w3)
        | ((cp, none), vt2, w3) => (Except.ok ⟨lp, dirs, cp⟩, vt2, w3)))

/-! ## A small world for the examples -/

/-- Two provider versions for the examples. -/
inductive DemoVersion where
  | ga
  | beta
  deriving DecidableEq, Repr

/-- The externals of the examples: paths are joined with a slash. -/
def demoExternals : Externals DemoVersion where
  versionString := fun v =>
    match v with
    | DemoVersion.ga => "ga"
    | DemoVersion.beta => "beta"
  join := String.intercalate "/"
  showPaths := fun paths => String.intercalate " " (paths.map Prod.snd)

/-- The state of the execution adapter of the examples: the files, the stack of
directories, and what a `go test` child process prints and returns. -/
structure SimState where
  files : List (String × String)
  dirs : List String
  goOutput : String
  goError : Option Error
  deriving DecidableEq, Repr

/-- The execution adapter of the examples: files are kept in a map, directories
on a stack, `go list` prints two packages and any other command prints
`goOutput` and returns `goError`. -/
def simRunner : ExecRunner SimState where
  GetCWD := fun s => s.dirs.headD "base"
  Mkdir := fun _ s => (none, s)
  PushDir := fun path s => (none, { s with dirs := path :: s.dirs })
  PopDir := fun s =>
    match s.dirs with
    | [] => (some "directory stack is empty", s)
    | _ :: dirs => (none, { s with dirs := dirs })
  ReadFile := fun path s =>
    match mapGet s.files path with
    | some content => ((content, none), s)
    | none => (("", some "no such file"), s)
  WriteFile := fun path content s => (none, { s with files := mapSet s.files path content })
  RemoveAll := fun path s =>
    (none, { s with files := s.files.filter (fun f => !decide (path.toList <+: f.1.toList)) })
  Run := fun _ args _ s =>
    if args.head? = some "list" then (("./google/a\n./google/b", none), s)
    else ((s.goOutput, s.goError), s)

/-- A tester of the examples, with the `ga` repository cloned and its cassettes
fetched. -/
def demoTester : Tester DemoVersion where
  env := [("GOPATH", "/go"), ("SA_KEY", "secret"), ("TF_LOG", "TRACE")]
  cassetteBucket := "cassettes"
  logBucket := "logs"
  baseDir := "base"
  saKeyPath := "sa_key.json"
  cassettePaths := [(DemoVersion.ga, "base/cassettes/ga")]
  logPaths := []
  repoPaths := [(DemoVersion.ga, "repo")]

/-- The common shape of `Run` and `RunParallel`: the error of the set-up ends the
call, otherwise the launch phase gives the result. -/
def callWith {σ V : Type} (r : Except Error RunContext × Tester V × World σ)
    (launch : Tester V → RunContext → World σ → (Result × Option Error) × World σ) :
    (Result × Option Error) × Tester V × World σ :=
  match r with
  | (Except.error err, vt2, w3) => ((Result.zero, some err), vt2, w3)
  | (Except.ok ctx, vt2, w3) => ((launch vt2 ctx w3).1, vt2, (launch vt2 ctx w3).2)

/-- The execution adapter of the examples with a `go list` that fails: the
discovery of the test directories returns an error. -/
def simRunnerNoList : ExecRunner SimState :=
  { simRunner with
    Run := fun _ args _ s =>
      if args.head? = some "list" then (("", some "go list failed"), s)
      else ((s.goOutput, s.goError), s) }

/-- Whether an event is a text printed by `fmt.Printf`. -/
def Event.isPrint : Event → Bool
  | Event.Print _ => true
  | _ => false

/-- Whether an event is a call of `PopDir`. -/
def Event.isPopDir : Event → Bool
  | Event.PopDir _ => true
  | _ => false

/-! ## Sorting and sets: basic facts -/

theorem sortStrings_perm (l : List String) : (sortStrings l).Perm l :=
  List.perm_insertionSort _ l

theorem sortStrings_sorted (l : List String) : (sortStrings l).Sorted (fun a b => a ≤ b) :=
  List.sorted_insertionSort _ l

theorem mem_sortStrings {l : List String} {x : String} : x ∈ sortStrings l ↔ x ∈ l :=
  (sortStrings_perm l).mem_iff

theorem sortStrings_eq_of_perm {l₁ l₂ : List String} (h : l₁.Perm l₂) :
    sortStrings l₁ = sortStrings l₂ :=
  List.eq_of_perm_of_sorted
    (((sortStrings_perm l₁).trans h).trans (sortStrings_perm l₂).symm)
    (sortStrings_sorted l₁) (sortStrings_sorted l₂)

theorem sortStrings_iter (ro : RangeOrder) (l : List String) :
    sortStrings (ro.iter l) = sortStrings l :=
  sortStrings_eq_of_perm (ro.perm l)

theorem sortStrings_nodup {l : List String} (h : l.Nodup) : (sortStrings l).Nodup :=
  (sortStrings_perm l).nodup_iff.mpr h

theorem mem_setAdd {set : List String} {name x : String} :
    x ∈ setAdd set name ↔ x ∈ set ∨ x = name := by
  unfold setAdd
  split_ifs with h
  · constructor
    · exact Or.inl
    · rintro (h1 | h1)
      · exact h1
      · exact h1 ▸ h
  · simp

theorem setAdd_nodup {set : List String} (name : String) (h : set.Nodup) :
    (setAdd set name).Nodup := by
  unfold setAdd
  split_ifs with hm
  · exact h
  · exact List.Nodup.append h (List.nodup_singleton _) (by simpa using hm)

theorem mem_addResult {sets : String → List String} {kind name k x : String} :
    x ∈ addResult sets kind name k ↔ x ∈ sets k ∨ (k = kind ∧ x = name) := by
  unfold addResult
  split_ifs with h
  · simp [mem_setAdd, h]
  · simp [h]

theorem addResult_nodup {sets : String → List String} (kind name : String)
    (h : ∀ k, (sets k).Nodup) (k : String) : (addResult sets kind name k).Nodup := by
  unfold addResult
  split_ifs
  · exact setAdd_nodup _ (h k)
  · exact h k


/-! ## The scan of a multiline expression goes line by line -/

theorem firstLine_cons_newline (cs : List Char) : firstLine ('\n' :: cs) = [] := by
  simp [firstLine]

theorem firstLine_cons_of_ne {c : Char} (h : c ≠ '\n') (cs : List Char) :
    firstLine (c :: cs) = c :: firstLine cs := by
  simp [firstLine, h]

theorem splitOn_newline_cons (cs : List Char) :
    ('\n' :: cs).splitOn '\n' = [] :: cs.splitOn '\n' := by
  simp [List.splitOn, List.splitOnP_cons]

theorem splitOn_cons_of_ne {c : Char} (h : c ≠ '\n') (cs : List Char) :
    (c :: cs).splitOn '\n' = List.modifyHead (List.cons c) (cs.splitOn '\n') := by
  simp [List.splitOn, List.splitOnP_cons, h]

theorem splitOn_eq_firstLine_cons (s : List Char) :
    s.splitOn '\n' = firstLine s :: (s.splitOn '\n').tail := by
  induction s with
  | nil => simp [firstLine, List.splitOn]
  | cons c cs ih =>
    by_cases h : c = '\n'
    · subst h
      rw [splitOn_newline_cons, firstLine_cons_newline]
      rfl
    · rw [splitOn_cons_of_ne h, firstLine_cons_of_ne h, ih]
      rfl

theorem tail_splitOn_cons_of_ne {c : Char} (h : c ≠ '\n') (cs : List Char) :
    ((c :: cs).splitOn '\n').tail = (cs.splitOn '\n').tail := by
  rw [splitOn_cons_of_ne h, splitOn_eq_firstLine_cons cs]
  rfl

theorem toList_append_filterMap {α β : Type} (f : α → Option β) (a : α) (l : List α) :
    (f a).toList ++ l.filterMap f = (a :: l).filterMap f := by
  cases h : f a <;> simp [List.filterMap_cons, h]

theorem findFrom_lines (re : Regexp) (hm : re.multiline = true) (hb : LineLocal re.body)
    (s : List Char) : ∀ (skip : Nat) (bol : Bool), skip ≤ (firstLine s).length →
    findFrom re skip bol s =
      (if skip = 0 ∧ bol = true then (re.body (firstLine s)).toList else []) ++
        (s.splitOn '\n').tail.filterMap re.body := by
  induction s with
  | nil =>
    intro skip bol _
    have : re.body (firstLine []) = none := by simpa [firstLine] using hb.nonempty
    simp [findFrom, this, List.splitOn]
  | cons c cs ih =>
    intro skip bol hskip
    by_cases h : c = '\n'
    · subst h
      rw [firstLine_cons_newline] at hskip
      have hs : skip = 0 := by simpa using hskip
      subst hs
      have hnone : re.body ('\n' :: cs) = none := by
        rw [hb.onLine, firstLine_cons_newline, hb.nonempty]
      have hrec := ih 0 true (Nat.zero_le _)
      rw [splitOn_newline_cons, firstLine_cons_newline, hb.nonempty]
      rw [splitOn_eq_firstLine_cons cs]
      simp only [findFrom, hnone, hm, ite_self, Bool.true_and, beq_self_eq_true, hrec]
      simp [toList_append_filterMap]
    · rw [firstLine_cons_of_ne h] at hskip
      rw [tail_splitOn_cons_of_ne h]
      have hbeq : (c == '\n') = false := by simpa using h
      cases skip with
      | succ k =>
        have hk : k ≤ (firstLine cs).length := by simpa using hskip
        simp [findFrom, hbeq, ih k false hk]
      | zero =>
        cases bol with
        | false => simp [findFrom, hbeq, ih 0 false (Nat.zero_le _)]
        | true =>
          rw [← hb.onLine]
          cases hbody : re.body (c :: cs) with
          | none => simp [findFrom, hbody, hbeq, ih 0 false (Nat.zero_le _)]
          | some m =>
            have hpre := hb.matched _ _ (hb.onLine _ ▸ hbody)
            have hlen : (m.headD "").length ≤ (firstLine (c :: cs)).length := hpre.length_le
            rw [firstLine_cons_of_ne h] at hlen
            have hk : (m.headD "").length - 1 ≤ (firstLine cs).length := by
              simp only [List.length_cons] at hlen
              omega
            simp only [findFrom, hbody, hbeq, ite_true, Bool.and_false, ih _ false hk]
            simp

theorem findAll_lines (re : Regexp) (hm : re.multiline = true) (hb : LineLocal re.body)
    (s : String) :
    re.FindAllStringSubmatch s = (s.toList.splitOn '\n').filterMap re.body := by
  unfold Regexp.FindAllStringSubmatch
  rw [findFrom_lines re hm hb s.toList 0 true (Nat.zero_le _)]
  conv_rhs => rw [splitOn_eq_firstLine_cons]
  simp [toList_append_filterMap]


/-! ## The matchers -/

theorem dropLit_eq_some {lit s r : List Char} : dropLit lit s = some r ↔ s = lit ++ r := by
  induction lit generalizing s with
  | nil => simp [dropLit, eq_comm]
  | cons c cs ih =>
    cases s with
    | nil => simp [dropLit]
    | cons d ds =>
      by_cases h : c = d
      · subst h
        simp [dropLit, ih]
      · simp [dropLit, h, Ne.symm h]

theorem dropLit_append (lit r : List Char) : dropLit lit (lit ++ r) = some r :=
  dropLit_eq_some.mpr rfl

theorem firstLine_append_dropWhile (s : List Char) :
    firstLine s ++ s.dropWhile (fun c => c != '\n') = s :=
  List.takeWhile_append_dropWhile _ s

theorem firstLine_append_of_not_mem {a : List Char} (h : '\n' ∉ a) (b : List Char) :
    firstLine (a ++ b) = a ++ firstLine b := by
  induction a with
  | nil => rfl
  | cons c cs ih =>
    have hc : c ≠ '\n' := fun e => h (e ▸ List.mem_cons_self _ _)
    have hcs : '\n' ∉ cs := fun e => h (List.mem_cons_of_mem _ e)
    simp [firstLine_cons_of_ne hc, ih hcs]

theorem dropLit_firstLine {lit : List Char} (h : '\n' ∉ lit) (s : List Char) :
    dropLit lit (firstLine s) = (dropLit lit s).map firstLine := by
  cases hs : dropLit lit s with
  | some r =>
    rw [dropLit_eq_some] at hs
    subst hs
    rw [firstLine_append_of_not_mem h, dropLit_append]
    rfl
  | none =>
    cases hf : dropLit lit (firstLine s) with
    | none => rfl
    | some r =>
      rw [dropLit_eq_some] at hf
      have : dropLit lit s = some (r ++ s.dropWhile (fun c => c != '\n')) := by
        rw [dropLit_eq_some, ← List.append_assoc, ← hf, firstLine_append_dropWhile]
      rw [this] at hs
      cases hs

theorem takeWhile_word_firstLine (s : List Char) :
    (firstLine s).takeWhile isWordChar = s.takeWhile isWordChar := by
  induction s with
  | nil => rfl
  | cons c cs ih =>
    by_cases h : c = '\n'
    · subst h
      rw [firstLine_cons_newline]
      rfl
    · rw [firstLine_cons_of_ne h]
      simp [List.takeWhile_cons, ih]

theorem dropWhile_word_firstLine (s : List Char) :
    (firstLine s).dropWhile isWordChar = firstLine (s.dropWhile isWordChar) := by
  induction s with
  | nil => rfl
  | cons c cs ih =>
    by_cases h : c = '\n'
    · subst h
      rw [firstLine_cons_newline]
      rfl
    · rw [firstLine_cons_of_ne h]
      by_cases hw : isWordChar c = true
      · simp [List.dropWhile_cons, hw, ih]
      · simp [List.dropWhile_cons, hw, firstLine_cons_of_ne h]

theorem matchStatus_firstLine (s : List Char) :
    matchStatus (firstLine s) = (matchStatus s).map (fun p => (p.1, firstLine p.2)) := by
  unfold matchStatus
  rw [dropLit_firstLine (by decide), dropLit_firstLine (by decide), dropLit_firstLine (by decide)]
  cases dropLit "PASS".toList s <;> cases dropLit "FAIL".toList s <;>
    cases dropLit "SKIP".toList s <;> rfl

theorem matchStatus_eq_some {s r : List Char} {k : String} (h : matchStatus s = some (k, r)) :
    (k = "PASS" ∨ k = "FAIL" ∨ k = "SKIP") ∧ s = k.toList ++ r := by
  unfold matchStatus at h
  cases h1 : dropLit "PASS".toList s with
  | some r1 =>
    rw [h1] at h
    cases h
    exact ⟨Or.inl rfl, dropLit_eq_some.mp h1⟩
  | none =>
    rw [h1] at h
    cases h2 : dropLit "FAIL".toList s with
    | some r2 =>
      rw [h2] at h
      cases h
      exact ⟨Or.inr (Or.inl rfl), dropLit_eq_some.mp h2⟩
    | none =>
      rw [h2] at h
      cases h3 : dropLit "SKIP".toList s with
      | some r3 =>
        rw [h3] at h
        cases h
        exact ⟨Or.inr (Or.inr rfl), dropLit_eq_some.mp h3⟩
      | none =>
        rw [h3] at h
        cases h

theorem matchStatus_append {k : String} (hk : k = "PASS" ∨ k = "FAIL" ∨ k = "SKIP")
    (r : List Char) : matchStatus (k.toList ++ r) = some (k, r) := by
  rcases hk with rfl | rfl | rfl <;> rfl


theorem matchTestName_firstLine (s : List Char) :
    matchTestName (firstLine s) = (matchTestName s).map (fun p => (p.1, firstLine p.2)) := by
  unfold matchTestName
  rw [dropLit_firstLine (by decide)]
  cases dropLit "TestAcc".toList s with
  | none => rfl
  | some r =>
    simp only [Option.map_some', takeWhile_word_firstLine, dropWhile_word_firstLine]
    cases r.takeWhile isWordChar <;> rfl

theorem head_dropWhile_word (r : List Char) (c : Char)
    (h : (r.dropWhile isWordChar).head? = some c) : isWordChar c = false := by
  induction r with
  | nil => simp at h
  | cons d ds ih =>
    by_cases hd : isWordChar d = true
    · rw [List.dropWhile_cons_of_pos hd] at h
      exact ih h
    · rw [List.dropWhile_cons_of_neg hd] at h
      simp at h
      subst h
      simpa using hd

theorem matchTestName_eq_some {s r : List Char} {n : String} (h : matchTestName s = some (n, r)) :
    IsTestName n ∧ s = n.toList ++ r ∧ ∀ c, r.head? = some c → isWordChar c = false := by
  unfold matchTestName at h
  cases h1 : dropLit "TestAcc".toList s with
  | none => rw [h1] at h; cases h
  | some t =>
    rw [h1] at h
    rw [dropLit_eq_some] at h1
    cases hw : t.takeWhile isWordChar with
    | nil => simp [hw] at h
    | cons c w =>
      simp only [hw, Option.some.injEq, Prod.mk.injEq] at h
      obtain ⟨hn, hr⟩ := h
      subst hn hr
      refine ⟨⟨String.mk (c :: w), ⟨by simp, ?_⟩, rfl⟩, ?_, head_dropWhile_word t⟩
      · intro x hx
        have hx2 : x ∈ t.takeWhile isWordChar := by rw [hw]; exact hx
        exact List.mem_takeWhile_imp hx2
      · rw [h1]
        show "TestAcc".toList ++ t = ("TestAcc" ++ String.mk (c :: w)).data ++ _
        rw [String.data_append, List.append_assoc]
        show _ = "TestAcc".toList ++ ((c :: w) ++ _)
        rw [← hw, List.takeWhile_append_dropWhile]

theorem takeWhile_word_append {w r : List Char} (hw : ∀ c ∈ w, isWordChar c = true)
    (hr : ∀ c, r.head? = some c → isWordChar c = false) :
    (w ++ r).takeWhile isWordChar = w ∧ (w ++ r).dropWhile isWordChar = r := by
  induction w with
  | nil =>
    cases r with
    | nil => simp
    | cons d ds =>
      have := hr d rfl
      simp [List.takeWhile_cons, List.dropWhile_cons, this]
  | cons c cs ih =>
    have hc := hw c (List.mem_cons_self _ _)
    have := ih (fun x hx => hw x (List.mem_cons_of_mem _ hx))
    simp [List.takeWhile_cons, List.dropWhile_cons, hc, this]

theorem matchTestName_append {w : String} (hw : IsWord w) {r : List Char}
    (hr : ∀ c, r.head? = some c → isWordChar c = false) :
    matchTestName (("TestAcc" ++ w).toList ++ r) = some ("TestAcc" ++ w, r) := by
  unfold matchTestName
  have h1 : ("TestAcc" ++ w).toList ++ r = "TestAcc".toList ++ (w.toList ++ r) := by
    simp [String.toList, String.data_append]
  rw [h1, dropLit_append]
  obtain ⟨ht, hd⟩ := takeWhile_word_append hw.2 hr
  simp only [ht, hd]
  cases hwl : w.toList with
  | nil => exact absurd hwl hw.1
  | cons c cs =>
    simp only
    rw [← hwl]
    rfl


theorem testResultsBody_firstLine (s : List Char) :
    testResultsBody (firstLine s) = testResultsBody s := by
  unfold testResultsBody
  rw [dropLit_firstLine (by decide)]
  cases dropLit "--- ".toList s with
  | none => rfl
  | some s1 =>
    simp only [Option.map_some', matchStatus_firstLine]
    cases matchStatus s1 with
    | none => rfl
    | some p =>
      simp only [Option.map_some', dropLit_firstLine (show '\n' ∉ ": ".toList by decide)]
      cases dropLit ": ".toList p.2 with
      | none => rfl
      | some s3 =>
        simp only [Option.map_some', matchTestName_firstLine]
        cases matchTestName s3 <;> rfl

theorem testResultsBody_eq_some {s : List Char} {m : List String}
    (h : testResultsBody s = some m) :
    ∃ (kind name : String) (r : List Char),
      m = ["--- " ++ kind ++ ": " ++ name, kind, name] ∧
      (kind = "PASS" ∨ kind = "FAIL" ∨ kind = "SKIP") ∧ IsTestName name ∧
      s = ("--- " ++ kind ++ ": " ++ name).toList ++ r ∧
      ∀ c, r.head? = some c → isWordChar c = false := by
  unfold testResultsBody at h
  split at h
  · cases h
  · rename_i s1 h1
    split at h
    · cases h
    · rename_i kind s2 h2
      split at h
      · cases h
      · rename_i s3 h3
        split at h
        · cases h
        · rename_i name s4 h4
          obtain ⟨hk, e2⟩ := matchStatus_eq_some h2
          obtain ⟨hn, e4, hr⟩ := matchTestName_eq_some h4
          refine ⟨kind, name, s4, (Option.some.inj h).symm, hk, hn, ?_, hr⟩
          rw [dropLit_eq_some] at h1 h3
          rw [h1, e2, h3, e4]
          simp [String.toList, String.data_append]

theorem testResultsBody_marker {kind : String}
    (hk : kind = "PASS" ∨ kind = "FAIL" ∨ kind = "SKIP") {w : String} (hw : IsWord w)
    {r : List Char} (hr : ∀ c, r.head? = some c → isWordChar c = false) :
    testResultsBody (("--- " ++ kind ++ ": " ++ ("TestAcc" ++ w)).toList ++ r) =
      some ["--- " ++ kind ++ ": " ++ ("TestAcc" ++ w), kind, "TestAcc" ++ w] := by
  have e : ("--- " ++ kind ++ ": " ++ ("TestAcc" ++ w)).toList ++ r =
      "--- ".toList ++ (kind.toList ++ (": ".toList ++ (("TestAcc" ++ w).toList ++ r))) := by
    simp [String.toList, String.data_append]
  unfold testResultsBody
  rw [e, dropLit_append]
  simp only [matchStatus_append hk, dropLit_append, matchTestName_append hw hr]

theorem testResultsBody_lineLocal : LineLocal testResultsBody where
  onLine := fun s => (testResultsBody_firstLine s).symm
  matched := by
    intro s m h
    obtain ⟨kind, name, r, hm, -, -, hs, -⟩ := testResultsBody_eq_some h
    subst hm
    exact ⟨r, hs.symm⟩
  nonempty := rfl


theorem subtestResultsBody_firstLine (s : List Char) :
    subtestResultsBody (firstLine s) = subtestResultsBody s := by
  unfold subtestResultsBody
  rw [dropLit_firstLine (by decide)]
  cases dropLit "    --- ".toList s with
  | none => rfl
  | some s1 =>
    simp only [Option.map_some', matchStatus_firstLine]
    cases matchStatus s1 with
    | none => rfl
    | some p =>
      simp only [Option.map_some', dropLit_firstLine (show '\n' ∉ ": ".toList by decide)]
      cases dropLit ": ".toList p.2 with
      | none => rfl
      | some s3 =>
        simp only [Option.map_some', matchTestName_firstLine]
        cases matchTestName s3 with
        | none => rfl
        | some q =>
          simp only [Option.map_some', dropLit_firstLine (show '\n' ∉ "/".toList by decide)]
          cases dropLit "/".toList q.2 with
          | none => rfl
          | some s5 =>
            simp only [Option.map_some', takeWhile_word_firstLine]

theorem subtestResultsBody_eq_some {s : List Char} {m : List String}
    (h : subtestResultsBody s = some m) :
    ∃ (kind name sub : String) (r : List Char),
      m = ["    --- " ++ kind ++ ": " ++ name ++ "/" ++ sub, kind, name, sub] ∧
      (kind = "PASS" ∨ kind = "FAIL" ∨ kind = "SKIP") ∧ IsTestName name ∧ IsWord sub ∧
      s = ("    --- " ++ kind ++ ": " ++ name ++ "/" ++ sub).toList ++ r ∧
      ∀ c, r.head? = some c → isWordChar c = false := by
  unfold subtestResultsBody at h
  split at h
  · cases h
  · rename_i s1 h1
    split at h
    · cases h
    · rename_i kind s2 h2
      split at h
      · cases h
      · rename_i s3 h3
        split at h
        · cases h
        · rename_i name s4 h4
          split at h
          · cases h
          · rename_i s5 h5
            split at h
            · cases h
            · rename_i w hw
              obtain ⟨hk, e2⟩ := matchStatus_eq_some h2
              obtain ⟨hn, e4, -⟩ := matchTestName_eq_some h4
              have hwne : s5.takeWhile isWordChar ≠ [] := fun e => hw e
              refine ⟨kind, name, String.mk (s5.takeWhile isWordChar), s5.dropWhile isWordChar,
                (Option.some.inj h).symm, hk, hn, ⟨hwne, ?_⟩, ?_, head_dropWhile_word s5⟩
              · intro x hx
                exact List.mem_takeWhile_imp hx
              · rw [dropLit_eq_some] at h1 h3 h5
                rw [h1, e2, h3, e4, h5]
                simp [String.toList, String.data_append]

theorem subtestResultsBody_marker {kind : String}
    (hk : kind = "PASS" ∨ kind = "FAIL" ∨ kind = "SKIP") {w sub : String} (hw : IsWord w)
    (hsub : IsWord sub) {r : List Char} (hr : ∀ c, r.head? = some c → isWordChar c = false) :
    subtestResultsBody
        (("    --- " ++ kind ++ ": " ++ ("TestAcc" ++ w) ++ "/" ++ sub).toList ++ r) =
      some ["    --- " ++ kind ++ ": " ++ ("TestAcc" ++ w) ++ "/" ++ sub, kind,
        "TestAcc" ++ w, sub] := by
  have e : ("    --- " ++ kind ++ ": " ++ ("TestAcc" ++ w) ++ "/" ++ sub).toList ++ r =
      "    --- ".toList ++ (kind.toList ++ (": ".toList ++
        (("TestAcc" ++ w).toList ++ ("/".toList ++ (sub.toList ++ r))))) := by
    simp [String.toList, String.data_append]
  have hslash : ∀ c, ("/".toList ++ (sub.toList ++ r)).head? = some c →
      isWordChar c = false := by
    intro c hc
    have : c = '/' := by simpa [eq_comm] using hc
    subst this
    decide
  obtain ⟨ht, -⟩ := takeWhile_word_append hsub.2 hr
  unfold subtestResultsBody
  rw [e, dropLit_append]
  simp only [matchStatus_append hk, dropLit_append, matchTestName_append hw hslash, ht]
  cases hs : sub.toList with
  | nil => exact absurd hs hsub.1
  | cons c cs =>
    simp only
    rw [← hs]
    rfl

theorem subtestResultsBody_lineLocal : LineLocal subtestResultsBody where
  onLine := fun s => (subtestResultsBody_firstLine s).symm
  matched := by
    intro s m h
    obtain ⟨kind, name, sub, r, hm, -, -, -, hs, -⟩ := subtestResultsBody_eq_some h
    subst hm
    exact ⟨r, hs.symm⟩
  nonempty := rfl


/-! ## The collecting loops -/

theorem mem_foldl_tests (found : List (List String)) (kind x : String) :
    ∀ sets : String → List String,
      x ∈ found.foldl
          (fun sets submatches =>
            match submatches with
            | [_, kind, name] => addResult sets kind name
            | _ => sets) sets kind ↔
        x ∈ sets kind ∨ ∃ full, [full, kind, x] ∈ found := by
  induction found with
  | nil => intro sets; simp
  | cons m ms ih =>
    intro sets
    rw [List.foldl_cons, ih]
    constructor
    · rintro (h | ⟨full, h⟩)
      · split at h
        · rename_i full k n
          rw [mem_addResult] at h
          rcases h with h | ⟨rfl, rfl⟩
          · exact Or.inl h
          · exact Or.inr ⟨full, List.mem_cons_self _ _⟩
        · exact Or.inl h
      · exact Or.inr ⟨full, List.mem_cons_of_mem _ h⟩
    · rintro (h | ⟨full, h⟩)
      · left
        split
        · exact mem_addResult.mpr (Or.inl h)
        · exact h
      · rcases List.mem_cons.mp h with h | h
        · left
          subst h
          exact mem_addResult.mpr (Or.inr ⟨rfl, rfl⟩)
        · exact Or.inr ⟨full, h⟩

theorem mem_collectTests {found : List (List String)} {kind x : String} :
    x ∈ collectTests found kind ↔ ∃ full, [full, kind, x] ∈ found := by
  unfold collectTests
  rw [mem_foldl_tests]
  simp

theorem nodup_foldl_tests (found : List (List String)) :
    ∀ sets : String → List String, (∀ k, (sets k).Nodup) → ∀ k,
      (found.foldl
          (fun sets submatches =>
            match submatches with
            | [_, kind, name] => addResult sets kind name
            | _ => sets) sets k).Nodup := by
  induction found with
  | nil => intro sets h k; exact h k
  | cons m ms ih =>
    intro sets h k
    rw [List.foldl_cons]
    apply ih
    intro k2
    split
    · exact addResult_nodup _ _ h k2
    · exact h k2

theorem collectTests_nodup (found : List (List String)) (kind : String) :
    (collectTests found kind).Nodup :=
  nodup_foldl_tests found _ (fun _ => List.nodup_nil) kind

theorem mem_foldl_subtests (found : List (List String)) (kind x : String) :
    ∀ sets : String → List String,
      x ∈ found.foldl
          (fun sets submatches =>
            match submatches with
            | [_, kind, test, subtest] => addResult sets kind (test ++ "__" ++ subtest)
            | _ => sets) sets kind ↔
        x ∈ sets kind ∨ ∃ full test subtest,
          [full, kind, test, subtest] ∈ found ∧ x = test ++ "__" ++ subtest := by
  induction found with
  | nil => intro sets; simp
  | cons m ms ih =>
    intro sets
    rw [List.foldl_cons, ih]
    constructor
    · rintro (h | ⟨full, t, u, h, e⟩)
      · split at h
        · rename_i full k t u
          rw [mem_addResult] at h
          rcases h with h | ⟨rfl, rfl⟩
          · exact Or.inl h
          · exact Or.inr ⟨full, t, u, List.mem_cons_self _ _, rfl⟩
        · exact Or.inl h
      · exact Or.inr ⟨full, t, u, List.mem_cons_of_mem _ h, e⟩
    · rintro (h | ⟨full, t, u, h, e⟩)
      · left
        split
        · exact mem_addResult.mpr (Or.inl h)
        · exact h
      · rcases List.mem_cons.mp h with h | h
        · left
          subst h
          exact mem_addResult.mpr (Or.inr ⟨rfl, e⟩)
        · exact Or.inr ⟨full, t, u, h, e⟩

theorem mem_collectSubtests {found : List (List String)} {kind x : String} :
    x ∈ collectSubtests found kind ↔
      ∃ full test subtest, [full, kind, test, subtest] ∈ found ∧ x = test ++ "__" ++ subtest := by
  unfold collectSubtests
  rw [mem_foldl_subtests]
  simp

theorem nodup_foldl_subtests (found : List (List String)) :
    ∀ sets : String → List String, (∀ k, (sets k).Nodup) → ∀ k,
      (found.foldl
          (fun sets submatches =>
            match submatches with
            | [_, kind, test, subtest] => addResult sets kind (test ++ "__" ++ subtest)
            | _ => sets) sets k).Nodup := by
  induction found with
  | nil => intro sets h k; exact h k
  | cons m ms ih =>
    intro sets h k
    rw [List.foldl_cons]
    apply ih
    intro k2
    split
    · exact addResult_nodup _ _ h k2
    · exact h k2

theorem collectSubtests_nodup (found : List (List String)) (kind : String) :
    (collectSubtests found kind).Nodup :=
  nodup_foldl_subtests found _ (fun _ => List.nodup_nil) kind


/-! ## What is collected from a text -/

theorem mem_textLines {output l : String} :
    l ∈ textLines output ↔ l.toList ∈ output.toList.splitOn '\n' := by
  unfold textLines
  constructor
  · intro h
    obtain ⟨cs, hcs, rfl⟩ := List.mem_map.mp h
    exact hcs
  · intro h
    exact List.mem_map.mpr ⟨l.toList, h, rfl⟩

theorem testResultsBody_iff {l kind x : String} :
    (∃ full, testResultsBody l.toList = some [full, kind, x]) ↔
      IsStatus kind ∧ IsTestName x ∧ IsTestMarker kind x l := by
  constructor
  · rintro ⟨full, h⟩
    obtain ⟨k, n, r, hm, hk, hn, hs, hr⟩ := testResultsBody_eq_some h
    simp only [List.cons.injEq, and_true] at hm
    obtain ⟨-, rfl, rfl⟩ := hm
    refine ⟨hk, hn, String.mk r, hr, ?_⟩
    apply String.ext
    rw [String.data_append]
    exact hs
  · rintro ⟨hk, ⟨w, hw, rfl⟩, rest, hr, rfl⟩
    refine ⟨"--- " ++ kind ++ ": " ++ ("TestAcc" ++ w), ?_⟩
    have := testResultsBody_marker hk hw hr
    rw [← this]
    congr 1

theorem subtestResultsBody_iff {l kind t u : String} :
    (∃ full, subtestResultsBody l.toList = some [full, kind, t, u]) ↔
      IsStatus kind ∧ IsTestName t ∧ IsWord u ∧ IsSubtestMarker kind t u l := by
  constructor
  · rintro ⟨full, h⟩
    obtain ⟨k, n, sub, r, hm, hk, hn, hsub, hs, hr⟩ := subtestResultsBody_eq_some h
    simp only [List.cons.injEq, and_true] at hm
    obtain ⟨-, rfl, rfl, rfl⟩ := hm
    refine ⟨hk, hn, hsub, String.mk r, hr, ?_⟩
    apply String.ext
    rw [String.data_append]
    exact hs
  · rintro ⟨hk, ⟨w, hw, rfl⟩, hu, rest, hr, rfl⟩
    refine ⟨"    --- " ++ kind ++ ": " ++ ("TestAcc" ++ w) ++ "/" ++ u, ?_⟩
    have := subtestResultsBody_marker hk hw hu hr
    rw [← this]
    congr 1

theorem mem_tests_of_text {output kind x : String} :
    x ∈ collectTests (testResultsExpression.FindAllStringSubmatch output) kind ↔
      IsStatus kind ∧ IsTestName x ∧ ∃ l ∈ textLines output, IsTestMarker kind x l := by
  rw [mem_collectTests, findAll_lines _ rfl testResultsBody_lineLocal]
  constructor
  · rintro ⟨full, h⟩
    obtain ⟨cs, hcs, hb⟩ := List.mem_filterMap.mp h
    obtain ⟨hk, hn, hl⟩ := (testResultsBody_iff (l := String.mk cs)).mp ⟨full, hb⟩
    exact ⟨hk, hn, String.mk cs, mem_textLines.mpr hcs, hl⟩
  · rintro ⟨hk, hn, l, hl, hmark⟩
    obtain ⟨full, hb⟩ := testResultsBody_iff.mpr ⟨hk, hn, hmark⟩
    exact ⟨full, List.mem_filterMap.mpr ⟨l.toList, mem_textLines.mp hl, hb⟩⟩

theorem mem_subtests_of_text {output kind x : String} :
    x ∈ collectSubtests (subtestResultsExpression.FindAllStringSubmatch output) kind ↔
      IsStatus kind ∧ ∃ t u, IsTestName t ∧ IsWord u ∧ x = t ++ "__" ++ u ∧
        ∃ l ∈ textLines output, IsSubtestMarker kind t u l := by
  rw [mem_collectSubtests, findAll_lines _ rfl subtestResultsBody_lineLocal]
  constructor
  · rintro ⟨full, t, u, h, rfl⟩
    obtain ⟨cs, hcs, hb⟩ := List.mem_filterMap.mp h
    obtain ⟨hk, hn, hu, hl⟩ := (subtestResultsBody_iff (l := String.mk cs)).mp ⟨full, hb⟩
    exact ⟨hk, t, u, hn, hu, rfl, String.mk cs, mem_textLines.mpr hcs, hl⟩
  · rintro ⟨hk, t, u, hn, hu, rfl, l, hl, hmark⟩
    obtain ⟨full, hb⟩ := subtestResultsBody_iff.mpr ⟨hk, hn, hu, hmark⟩
    exact ⟨full, t, u, List.mem_filterMap.mpr ⟨l.toList, mem_textLines.mp hl, hb⟩, rfl⟩


theorem tests_eq (ro : RangeOrder) (output : String) {kind : String} (hk : IsStatus kind) :
    (collectResult ro output).tests kind =
      sortStrings (collectTests (testResultsExpression.FindAllStringSubmatch output) kind) := by
  rcases hk with rfl | rfl | rfl <;>
    simp [Result.tests, collectResult, sortStrings_iter]

theorem subtests_eq (ro : RangeOrder) (output : String) {kind : String} (hk : IsStatus kind) :
    (collectResult ro output).subtests kind =
      sortStrings
        (collectSubtests (subtestResultsExpression.FindAllStringSubmatch output) kind) := by
  rcases hk with rfl | rfl | rfl <;>
    simp [Result.subtests, collectResult, sortStrings_iter]

theorem mem_tests {ro : RangeOrder} {output kind x : String} (hk : IsStatus kind) :
    x ∈ (collectResult ro output).tests kind ↔
      IsTestName x ∧ ∃ l ∈ textLines output, IsTestMarker kind x l := by
  rw [tests_eq ro output hk, mem_sortStrings, mem_tests_of_text]
  exact and_iff_right hk

theorem mem_subtests {ro : RangeOrder} {output kind x : String} (hk : IsStatus kind) :
    x ∈ (collectResult ro output).subtests kind ↔
      ∃ t u, IsTestName t ∧ IsWord u ∧ x = t ++ "__" ++ u ∧
        ∃ l ∈ textLines output, IsSubtestMarker kind t u l := by
  rw [subtests_eq ro output hk, mem_sortStrings, mem_subtests_of_text]
  exact and_iff_right hk

theorem tests_nodup (ro : RangeOrder) (output : String) {kind : String} (hk : IsStatus kind) :
    ((collectResult ro output).tests kind).Nodup := by
  rw [tests_eq ro output hk]
  exact sortStrings_nodup (collectTests_nodup _ _)

theorem subtests_nodup (ro : RangeOrder) (output : String) {kind : String}
    (hk : IsStatus kind) : ((collectResult ro output).subtests kind).Nodup := by
  rw [subtests_eq ro output hk]
  exact sortStrings_nodup (collectSubtests_nodup _ _)

theorem tests_sorted (ro : RangeOrder) (output : String) {kind : String} (hk : IsStatus kind) :
    ((collectResult ro output).tests kind).Sorted (fun a b => a ≤ b) := by
  rw [tests_eq ro output hk]
  exact sortStrings_sorted _

theorem subtests_sorted (ro : RangeOrder) (output : String) {kind : String}
    (hk : IsStatus kind) : ((collectResult ro output).subtests kind).Sorted (fun a b => a ≤ b) := by
  rw [subtests_eq ro output hk]
  exact sortStrings_sorted _

theorem collectResult_order (ro ro2 : RangeOrder) (output : String) :
    collectResult ro output = collectResult ro2 output := by
  simp [collectResult, sortStrings_iter]

/-- Two duplicate-free sorted lists with the same members are equal. -/
theorem eq_of_sorted_nodup_mem {l₁ l₂ : List String}
    (s₁ : l₁.Sorted (fun a b => a ≤ b)) (s₂ : l₂.Sorted (fun a b => a ≤ b))
    (d₁ : l₁.Nodup) (d₂ : l₂.Nodup) (h : ∀ x, x ∈ l₁ ↔ x ∈ l₂) : l₁ = l₂ :=
  List.eq_of_perm_of_sorted ((List.perm_ext_iff_of_nodup d₁ d₂).mpr h) s₁ s₂


/-! ## The lines of a text given by its lines -/

theorem textLines_unlines {lines : List String} (hne : lines ≠ [])
    (h : ∀ x ∈ lines, '\n' ∉ x.toList) : textLines (unlines lines) = lines := by
  unfold textLines unlines
  have h2 : ∀ l ∈ lines.map String.toList, '\n' ∉ l := by
    intro l hl
    obtain ⟨x, hx, rfl⟩ := List.mem_map.mp hl
    exact h x hx
  have h3 : lines.map String.toList ≠ [] := by simpa using hne
  show List.map String.mk
    (List.splitOn '\n' (List.intercalate ['\n'] (lines.map String.toList))) = lines
  rw [List.splitOn_intercalate _ '\n' h2 h3, List.map_map]
  exact List.map_id _

theorem textLines_unlines_nil : textLines (unlines []) = [""] := by decide

/-- No marker line is empty. -/
theorem not_isTestMarker_empty (kind x : String) : ¬ IsTestMarker kind x "" := by
  rintro ⟨rest, -, h⟩
  have := congrArg String.length h
  simp [String.length_append] at this
  have h2 : "--- ".length = 4 := by decide
  omega

theorem exists_marker_unlines {lines : List String} (h : ∀ x ∈ lines, '\n' ∉ x.toList)
    (kind x : String) :
    (∃ l ∈ textLines (unlines lines), IsTestMarker kind x l) ↔
      ∃ l ∈ lines, IsTestMarker kind x l := by
  by_cases hne : lines = []
  · subst hne
    rw [textLines_unlines_nil]
    constructor
    · rintro ⟨l, hl, hm⟩
      rw [List.mem_singleton] at hl
      subst hl
      exact absurd hm (not_isTestMarker_empty _ _)
    · rintro ⟨l, hl, -⟩
      cases hl
  · rw [textLines_unlines hne h]

/-- A subtest marker line is no top-level marker line: it starts with a space. -/
theorem not_isTestMarker_of_isSubtestMarker {k t u l : String} (h : IsSubtestMarker k t u l)
    (kind x : String) : ¬ IsTestMarker kind x l := by
  obtain ⟨r1, -, h1⟩ := h
  rintro ⟨r2, -, h2⟩
  rw [h1] at h2
  have := congrArg String.toList h2
  simp only [String.toList, String.data_append] at this
  have h3 := congrArg List.head? this
  simp [List.append_assoc] at h3


theorem tests_unlines_frame (ro : RangeOrder) (pre post : List String) (l k t u : String)
    (hlines : ∀ x ∈ pre ++ l :: post, '\n' ∉ x.toList) (hl : IsSubtestMarker k t u l)
    {kind : String} (hk : IsStatus kind) :
    (collectResult ro (unlines (pre ++ l :: post))).tests kind =
      (collectResult ro (unlines (pre ++ post))).tests kind := by
  have hlines2 : ∀ x ∈ pre ++ post, '\n' ∉ x.toList := by
    intro x hx
    apply hlines x
    rcases List.mem_append.mp hx with h | h
    · exact List.mem_append_left _ h
    · exact List.mem_append_right _ (List.mem_cons_of_mem _ h)
  refine eq_of_sorted_nodup_mem (tests_sorted _ _ hk) (tests_sorted _ _ hk)
    (tests_nodup _ _ hk) (tests_nodup _ _ hk) (fun x => ?_)
  rw [mem_tests hk, mem_tests hk, exists_marker_unlines hlines, exists_marker_unlines hlines2]
  apply and_congr_right
  intro _
  constructor
  · rintro ⟨y, hy, hm⟩
    rcases List.mem_append.mp hy with h | h
    · exact ⟨y, List.mem_append_left _ h, hm⟩
    · rcases List.mem_cons.mp h with h | h
      · subst h
        exact absurd hm (not_isTestMarker_of_isSubtestMarker hl _ _)
      · exact ⟨y, List.mem_append_right _ h, hm⟩
  · rintro ⟨y, hy, hm⟩
    rcases List.mem_append.mp hy with h | h
    · exact ⟨y, List.mem_append_left _ h, hm⟩
    · exact ⟨y, List.mem_append_right _ (List.mem_cons_of_mem _ h), hm⟩


/-! ## The panic expression -/

theorem findFrom_not_bol (re : Regexp) (hm : re.multiline = false) (s : List Char) :
    ∀ skip : Nat, findFrom re skip false s = [] := by
  induction s with
  | nil => intro skip; cases skip <;> rfl
  | cons c cs ih =>
    intro skip
    cases skip with
    | zero => simp [findFrom, hm, ih 0]
    | succ k => simp [findFrom, hm, ih k]

theorem findAll_not_multiline (re : Regexp) (hm : re.multiline = false)
    (hb : re.body [] = none) (s : String) :
    re.FindAllStringSubmatch s = (re.body s.toList).toList := by
  unfold Regexp.FindAllStringSubmatch
  cases hs : s.toList with
  | nil => simp [findFrom, hb]
  | cons c cs =>
    cases h : re.body (c :: cs) with
    | none => simp [findFrom, h, hm, findFrom_not_bol re hm cs]
    | some m => simp [findFrom, h, hm, findFrom_not_bol re hm cs]

theorem panics_length_le_one (ro : RangeOrder) (output : String) :
    (collectResult ro output).Panics.length ≤ 1 := by
  show (sortStrings (testPanicExpression.FindAllString output)).length ≤ 1
  rw [(sortStrings_perm _).length_eq]
  unfold Regexp.FindAllString
  rw [findAll_not_multiline testPanicExpression rfl rfl, List.length_map]
  show (testPanicBody output.toList).toList.length ≤ 1
  cases testPanicBody output.toList <;> simp


/-! ## The phases of a run -/

theorem makeLogPath_events {σ V : Type} [DecidableEq V] (x : Externals V) (rnr : ExecRunner σ)
    (vt : Tester V) (mode : Mode) (version : V) (w : World σ) :
    ∃ l, (makeLogPath x rnr vt mode version w).2.2.events = w.events ++ l ∧
      ∀ e ∈ l, ∃ p err, e = Event.Mkdir p err := by
  unfold makeLogPath
  split
  · exact ⟨[], by simp, by simp⟩
  · simp only [World.Mkdir]
    split
    · rename_i h
      simp only [Prod.mk.injEq] at h
      obtain ⟨-, rfl⟩ := h
      exact ⟨[_], rfl, by simp⟩
    · rename_i h
      simp only [Prod.mk.injEq] at h
      obtain ⟨-, rfl⟩ := h
      exact ⟨[_], rfl, by simp⟩

theorem makeLogPath_tester {σ V : Type} [DecidableEq V] (x : Externals V) (rnr : ExecRunner σ)
    (vt : Tester V) (mode : Mode) (version : V) (w : World σ) :
    (makeLogPath x rnr vt mode version w).2.1.env = vt.env ∧
    (makeLogPath x rnr vt mode version w).2.1.baseDir = vt.baseDir ∧
    (makeLogPath x rnr vt mode version w).2.1.saKeyPath = vt.saKeyPath ∧
    (makeLogPath x rnr vt mode version w).2.1.cassettePaths = vt.cassettePaths ∧
    (makeLogPath x rnr vt mode version w).2.1.repoPaths = vt.repoPaths := by
  unfold makeLogPath
  cases mapGet vt.logPaths (mode, version) with
  | some p => simp
  | none =>
    rcases hm : rnr.Mkdir (x.join [vt.baseDir, "testlogs", mode.Lower, x.versionString version])
      w.state with ⟨_ | err, s1⟩ <;> simp [World.Mkdir, hm]

theorem makeLogPath_quiet {σ V : Type} [DecidableEq V] (x : Externals V) (rnr : ExecRunner σ)
    (vt : Tester V) (mode : Mode) (version : V) (w : World σ) :
    ∃ l, (makeLogPath x rnr vt mode version w).2.2.events = w.events ++ l ∧
      ∀ e ∈ l, e.isSetup = true ∧ e.isRemoveAll = false := by
  obtain ⟨l, h1, h2⟩ := makeLogPath_events x rnr vt mode version w
  refine ⟨l, h1, fun e he => ?_⟩
  obtain ⟨p, err, rfl⟩ := h2 e he
  exact ⟨rfl, rfl⟩

theorem googleTestDirectory_quiet {σ : Type} (rnr : ExecRunner σ) (w : World σ) :
    ∃ l, (googleTestDirectory rnr w).2.events = w.events ++ l ∧
      ∀ e ∈ l, e.isSetup = true ∧ e.isRemoveAll = false := by
  unfold googleTestDirectory
  rcases h : rnr.Run "go" ["list", "./..."] none w.state with ⟨⟨out, _ | err⟩, s1⟩
  · exact ⟨[Event.Run "go" ["list", "./..."] none out none], by simp [World.Run, h],
      by simp [Event.isSetup, Event.isRemoveAll]⟩
  · exact ⟨[Event.Run "go" ["list", "./..."] none out (some err)], by simp [World.Run, h],
      by simp [Event.isSetup, Event.isRemoveAll]⟩

theorem enterRepo_quiet {σ V : Type} [DecidableEq V] (x : Externals V) (rnr : ExecRunner σ)
    (vt : Tester V) (opt : RunOptions V) (w : World σ) :
    ∃ l, (enterRepo x rnr vt opt w).2.events = w.events ++ l ∧
      ∀ e ∈ l, e.isSetup = true ∧ e.isRemoveAll = false := by
  unfold enterRepo
  cases mapGet vt.repoPaths opt.Version with
  | none => exact ⟨[], by simp, by simp⟩
  | some repoPath =>
    rcases h : rnr.PushDir repoPath w.state with ⟨_ | err, s1⟩
    · simp only [World.PushDir, h]
      split_ifs
      · obtain ⟨l, h1, h2⟩ := googleTestDirectory_quiet rnr
          ⟨s1, w.events ++ [Event.PushDir repoPath none]⟩
        refine ⟨Event.PushDir repoPath none :: l, by simp [h1], ?_⟩
        intro e he
        rcases List.mem_cons.mp he with rfl | he
        · exact ⟨rfl, rfl⟩
        · exact h2 e he
      · exact ⟨[Event.PushDir repoPath none], rfl, by simp [Event.isSetup, Event.isRemoveAll]⟩
    · exact ⟨[Event.PushDir repoPath (some err)], by simp [World.PushDir, h],
        by simp [Event.isSetup, Event.isRemoveAll]⟩

theorem cassetteStep_replaying {σ V : Type} [DecidableEq V] (x : Externals V)
    (rnr : ExecRunner σ) (vt : Tester V) (opt : RunOptions V) (w : World σ)
    (h : opt.Mode = Mode.Replaying) :
    (cassetteStep x rnr vt opt w).2 = (vt, w) ∧
    (cassetteStep x rnr vt opt w).1 =
      match mapGet vt.cassettePaths opt.Version with
      | none => ("", some ("cassettes not fetched for version " ++ x.versionString opt.Version))
      | some fetched => (fetched, none) := by
  unfold cassetteStep
  rw [h]
  cases mapGet vt.cassettePaths opt.Version <;> simp

theorem cassetteStep_recording {σ V : Type} [DecidableEq V] (x : Externals V)
    (rnr : ExecRunner σ) (vt : Tester V) (opt : RunOptions V) (w : World σ)
    (h : opt.Mode = Mode.Recording) :
    (∃ err s1, cassetteStep x rnr vt opt w =
        ((x.join [vt.baseDir, "cassettes", x.versionString opt.Version],
            some ("error removing cassettes: " ++ err)), vt,
          ⟨s1, w.events ++ [Event.RemoveAll
            (x.join [vt.baseDir, "cassettes", x.versionString opt.Version]) (some err)]⟩)) ∨
    (∃ err s2, cassetteStep x rnr vt opt w =
        ((x.join [vt.baseDir, "cassettes", x.versionString opt.Version],
            some ("error creating cassette dir: " ++ err)), vt,
          ⟨s2, w.events ++
            [Event.RemoveAll (x.join [vt.baseDir, "cassettes", x.versionString opt.Version]) none,
              Event.Mkdir (x.join [vt.baseDir, "cassettes", x.versionString opt.Version])
                (some err)]⟩)) ∨
    (∃ s2, cassetteStep x rnr vt opt w =
        ((x.join [vt.baseDir, "cassettes", x.versionString opt.Version], none),
          { vt with cassettePaths := (mapSet vt.cassettePaths opt.Version
              (x.join [vt.baseDir, "cassettes", x.versionString opt.Version])) },
          ⟨s2, w.events ++
            [Event.RemoveAll (x.join [vt.baseDir, "cassettes", x.versionString opt.Version]) none,
              Event.Mkdir (x.join [vt.baseDir, "cassettes", x.versionString opt.Version])
                none]⟩)) := by
  unfold cassetteStep
  rw [h]
  rcases h1 : rnr.RemoveAll (x.join [vt.baseDir, "cassettes", x.versionString opt.Version])
    w.state with ⟨_ | err, s1⟩
  · rcases h2 : rnr.Mkdir (x.join [vt.baseDir, "cassettes", x.versionString opt.Version])
      s1 with ⟨_ | err, s2⟩
    · right; right
      exact ⟨s2, by simp [World.RemoveAll, World.Mkdir, h1, h2]⟩
    · right; left
      exact ⟨err, s2, by simp [World.RemoveAll, World.Mkdir, h1, h2]⟩
  · left
    exact ⟨err, s1, by simp [World.RemoveAll, h1]⟩


theorem setupRun_outcome {σ V : Type} [DecidableEq V] (x : Externals V) (rnr : ExecRunner σ)
    (vt : Tester V) (opt : RunOptions V) (w : World σ) :
    SetupOutcome x rnr vt opt w (setupRun x rnr vt opt w) := by
  unfold setupRun
  obtain ⟨l1, h1, q1⟩ := makeLogPath_quiet x rnr vt opt.Mode opt.Version w
  obtain ⟨t1, t2, t3, t4, -⟩ := makeLogPath_tester x rnr vt opt.Mode opt.Version w
  rcases hm : makeLogPath x rnr vt opt.Mode opt.Version w with ⟨⟨lp, _ | err⟩, vt1, ⟨s1, ev1⟩⟩
  · rw [hm] at h1 t1 t2 t3 t4
    simp only at h1 t1 t2 t3 t4
    subst h1
    obtain ⟨l2, h2, q2⟩ := enterRepo_quiet x rnr vt1 opt ⟨s1, w.events ++ l1⟩
    have q12 : ∀ e ∈ l1 ++ l2, e.isSetup = true ∧ e.isRemoveAll = false := by
      intro e he
      rcases List.mem_append.mp he with he | he
      · exact q1 e he
      · exact q2 e he
    rcases he : enterRepo x rnr vt1 opt ⟨s1, w.events ++ l1⟩ with ⟨⟨dirs, _ | err⟩, ⟨s2, ev2⟩⟩
    · rw [he] at h2
      simp only at h2
      subst h2
      refine ⟨l1 ++ l2, vt1, q12, t1, t2, t3, t4, Or.inr ⟨lp, dirs, s2, ?_⟩⟩
      simp only [he, List.append_assoc]
    · rw [he] at h2
      simp only at h2
      subst h2
      refine ⟨l1 ++ l2, vt1, q12, t1, t2, t3, t4, Or.inl ⟨err, s2, ?_⟩⟩
      simp only [he, List.append_assoc]
  · rw [hm] at h1 t1 t2 t3 t4
    simp only at h1 t1 t2 t3 t4
    subst h1
    exact ⟨l1, vt1, q1, t1, t2, t3, t4, Or.inl ⟨err, s1, rfl⟩⟩

theorem setupRunParallel_outcome {σ V : Type} [DecidableEq V] (x : Externals V)
    (rnr : ExecRunner σ) (vt : Tester V) (opt : RunOptions V) (w : World σ) :
    SetupOutcome x rnr vt opt w (setupRunParallel x rnr vt opt w) := by
  unfold setupRunParallel
  obtain ⟨l1, h1, q1⟩ := makeLogPath_quiet x rnr vt opt.Mode opt.Version w
  obtain ⟨t1, t2, t3, t4, -⟩ := makeLogPath_tester x rnr vt opt.Mode opt.Version w
  rcases hm : makeLogPath x rnr vt opt.Mode opt.Version w with ⟨⟨lp, _ | err⟩, vt1, ⟨s1, ev1⟩⟩
  · rw [hm] at h1 t1 t2 t3 t4
    simp only at h1 t1 t2 t3 t4
    subst h1
    rcases hk : rnr.Mkdir (x.join [vt1.baseDir, "testlogs", opt.Mode.Lower ++ "_build"]) s1
      with ⟨_ | err, sk⟩
    · simp only [World.Mkdir, hk]
      obtain ⟨l2, h2, q2⟩ := enterRepo_quiet x rnr vt1 opt
        ⟨sk, w.events ++ l1 ++
          [Event.Mkdir (x.join [vt1.baseDir, "testlogs", opt.Mode.Lower ++ "_build"]) none]⟩
      have q12 : ∀ e ∈ l1 ++
          Event.Mkdir (x.join [vt1.baseDir, "testlogs", opt.Mode.Lower ++ "_build"]) none :: l2,
          e.isSetup = true ∧ e.isRemoveAll = false := by
        intro e he
        rcases List.mem_append.mp he with he | he
        · exact q1 e he
        · rcases List.mem_cons.mp he with rfl | he
          · exact ⟨rfl, rfl⟩
          · exact q2 e he
      rcases he : enterRepo x rnr vt1 opt
        ⟨sk, w.events ++ l1 ++
          [Event.Mkdir (x.join [vt1.baseDir, "testlogs", opt.Mode.Lower ++ "_build"]) none]⟩
        with ⟨⟨dirs, _ | err⟩, ⟨s2, ev2⟩⟩
      · rw [he] at h2
        simp only at h2
        subst h2
        refine ⟨_, vt1, q12, t1, t2, t3, t4, Or.inr ⟨lp, dirs, s2, ?_⟩⟩
        simp only [he, List.append_assoc, List.singleton_append]
      · rw [he] at h2
        simp only at h2
        subst h2
        refine ⟨_, vt1, q12, t1, t2, t3, t4, Or.inl ⟨err, s2, ?_⟩⟩
        simp only [he, List.append_assoc, List.singleton_append]
    · simp only [World.Mkdir, hk]
      refine ⟨l1 ++
        [Event.Mkdir (x.join [vt1.baseDir, "testlogs", opt.Mode.Lower ++ "_build"]) (some err)],
        vt1, ?_, t1, t2, t3, t4, Or.inl ⟨err, sk, ?_⟩⟩
      · intro e he
        rcases List.mem_append.mp he with he | he
        · exact q1 e he
        · rw [List.mem_singleton] at he
          subst he
          exact ⟨rfl, rfl⟩
      · simp only [List.append_assoc]
  · rw [hm] at h1 t1 t2 t3 t4
    simp only at h1 t1 t2 t3 t4
    subst h1
    exact ⟨l1, vt1, q1, t1, t2, t3, t4, Or.inl ⟨err, s1, rfl⟩⟩


/-! ## Maps -/

theorem mapGet_mapSet_self {κ ν : Type} [DecidableEq κ] (m : List (κ × ν)) (k : κ) (v : ν) :
    mapGet (mapSet m k v) k = some v := by
  induction m with
  | nil => simp [mapSet, mapGet]
  | cons p m ih =>
    obtain ⟨k1, v1⟩ := p
    by_cases h : k1 = k
    · simp [mapSet, mapGet, h]
    · simp [mapSet, mapGet, h, ih]

theorem mapGet_mapSet_of_ne {κ ν : Type} [DecidableEq κ] (m : List (κ × ν)) {k k2 : κ} (v : ν)
    (h : k ≠ k2) : mapGet (mapSet m k v) k2 = mapGet m k2 := by
  induction m with
  | nil => simp [mapSet, mapGet, h]
  | cons p m ih =>
    obtain ⟨k1, v1⟩ := p
    by_cases h1 : k1 = k
    · subst h1
      simp [mapSet, mapGet, h]
    · simp only [mapSet, h1, if_false, mapGet, ih]

/-! ## What a set-up does -/

theorem SetupOutcome.events {σ V : Type} [DecidableEq V] {x : Externals V} {rnr : ExecRunner σ}
    {vt : Tester V} {opt : RunOptions V} {w : World σ}
    {r : Except Error RunContext × Tester V × World σ} (h : SetupOutcome x rnr vt opt w r) :
    ∃ l, r.2.2.events = w.events ++ l ∧ ∀ e ∈ l, e.isSetup = true := by
  obtain ⟨pre, vt1, q, -, -, -, -, h | h⟩ := h
  · obtain ⟨err, s, rfl⟩ := h
    exact ⟨pre, rfl, fun e he => (q e he).1⟩
  · obtain ⟨lp, dirs, s, rfl⟩ := h
    cases hmode : opt.Mode with
    | Replaying =>
      obtain ⟨h1, h2⟩ := cassetteStep_replaying x rnr vt1 opt ⟨s, w.events ++ pre⟩ hmode
      rcases hc : cassetteStep x rnr vt1 opt ⟨s, w.events ++ pre⟩ with ⟨⟨cp, _ | err⟩, vt2, w3⟩ <;>
      · rw [hc] at h1
        simp only [Prod.mk.injEq] at h1
        obtain ⟨-, rfl⟩ := h1
        exact ⟨pre, rfl, fun e he => (q e he).1⟩
    | Recording =>
      rcases cassetteStep_recording x rnr vt1 opt ⟨s, w.events ++ pre⟩ hmode with
        ⟨err, s1, hc⟩ | ⟨err, s2, hc⟩ | ⟨s2, hc⟩ <;>
      · rw [hc]
        refine ⟨pre ++ _, (List.append_assoc _ _ _), ?_⟩
        intro e he
        rcases List.mem_append.mp he with he | he
        · exact (q e he).1
        · simp only [List.mem_cons, List.mem_singleton, List.not_mem_nil, or_false] at he
          rcases he with rfl | rfl <;> rfl

theorem SetupOutcome.tester {σ V : Type} [DecidableEq V] {x : Externals V}
    {rnr : ExecRunner σ} {vt : Tester V} {opt : RunOptions V} {w : World σ}
    {r : Except Error RunContext × Tester V × World σ} (h : SetupOutcome x rnr vt opt w r) :
    r.2.1.env = vt.env ∧ r.2.1.baseDir = vt.baseDir ∧ r.2.1.saKeyPath = vt.saKeyPath := by
  obtain ⟨pre, vt1, q, t1, t2, t3, -, h | h⟩ := h
  · obtain ⟨err, s, rfl⟩ := h
    exact ⟨t1, t2, t3⟩
  · obtain ⟨lp, dirs, s, rfl⟩ := h
    cases hmode : opt.Mode with
    | Replaying =>
      obtain ⟨h1, h2⟩ := cassetteStep_replaying x rnr vt1 opt ⟨s, w.events ++ pre⟩ hmode
      rcases hc : cassetteStep x rnr vt1 opt ⟨s, w.events ++ pre⟩ with ⟨⟨cp, _ | err⟩, vt2, w3⟩ <;>
      · rw [hc] at h1
        simp only [Prod.mk.injEq] at h1
        obtain ⟨rfl, -⟩ := h1
        exact ⟨t1, t2, t3⟩
    | Recording =>
      rcases cassetteStep_recording x rnr vt1 opt ⟨s, w.events ++ pre⟩ hmode with
        ⟨err, s1, hc⟩ | ⟨err, s2, hc⟩ | ⟨s2, hc⟩ <;>
      · rw [hc]
        exact ⟨t1, t2, t3⟩

theorem SetupOutcome.replaying {σ V : Type} [DecidableEq V] {x : Externals V}
    {rnr : ExecRunner σ} {vt : Tester V} {opt : RunOptions V} {w : World σ}
    {r : Except Error RunContext × Tester V × World σ} (h : SetupOutcome x rnr vt opt w r)
    (hmode : opt.Mode = Mode.Replaying) :
    (∃ l, r.2.2.events = w.events ++ l ∧ ∀ e ∈ l, e.isSetup = true ∧ e.isRemoveAll = false) ∧
    r.2.1.cassettePaths = vt.cassettePaths ∧
    (mapGet vt.cassettePaths opt.Version = none → ∃ err, r.1 = Except.error err) := by
  obtain ⟨pre, vt1, q, -, -, -, t4, h | h⟩ := h
  · obtain ⟨err, s, rfl⟩ := h
    exact ⟨⟨pre, rfl, q⟩, t4, fun _ => ⟨err, rfl⟩⟩
  · obtain ⟨lp, dirs, s, rfl⟩ := h
    obtain ⟨h1, h2⟩ := cassetteStep_replaying x rnr vt1 opt ⟨s, w.events ++ pre⟩ hmode
    rcases hc : cassetteStep x rnr vt1 opt ⟨s, w.events ++ pre⟩ with ⟨⟨cp, _ | err⟩, vt2, w3⟩
    · rw [hc] at h1 h2
      simp only [Prod.mk.injEq] at h1
      obtain ⟨rfl, rfl⟩ := h1
      refine ⟨⟨pre, rfl, q⟩, t4, fun hnone => ?_⟩
      rw [t4, hnone] at h2
      simp at h2
    · rw [hc] at h1
      simp only [Prod.mk.injEq] at h1
      obtain ⟨rfl, rfl⟩ := h1
      exact ⟨⟨pre, rfl, q⟩, t4, fun _ => ⟨err, rfl⟩⟩

theorem SetupOutcome.recording {σ V : Type} [DecidableEq V] {x : Externals V}
    {rnr : ExecRunner σ} {vt : Tester V} {opt : RunOptions V} {w : World σ}
    {r : Except Error RunContext × Tester V × World σ} (h : SetupOutcome x rnr vt opt w r)
    (hmode : opt.Mode = Mode.Recording) {ctx : RunContext} (hok : r.1 = Except.ok ctx) :
    (∃ pre, r.2.2.events = w.events ++ pre ++
        [Event.RemoveAll (x.join [vt.baseDir, "cassettes", x.versionString opt.Version]) none,
          Event.Mkdir (x.join [vt.baseDir, "cassettes", x.versionString opt.Version]) none] ∧
      ∀ e ∈ pre, e.isSetup = true ∧ e.isRemoveAll = false) ∧
    mapGet r.2.1.cassettePaths opt.Version =
      some (x.join [vt.baseDir, "cassettes", x.versionString opt.Version]) ∧
    ctx.cassettePath = x.join [vt.baseDir, "cassettes", x.versionString opt.Version] := by
  obtain ⟨pre, vt1, q, -, t2, -, -, h | h⟩ := h
  · obtain ⟨err, s, rfl⟩ := h
    cases hok
  · obtain ⟨lp, dirs, s, rfl⟩ := h
    rcases cassetteStep_recording x rnr vt1 opt ⟨s, w.events ++ pre⟩ hmode with
      ⟨err, s1, hc⟩ | ⟨err, s2, hc⟩ | ⟨s2, hc⟩
    · rw [hc] at hok
      cases hok
    · rw [hc] at hok
      cases hok
    · rw [hc] at hok ⊢
      simp only [Except.ok.injEq] at hok
      subst hok
      rw [t2]
      exact ⟨⟨pre, rfl, q⟩, mapGet_mapSet_self _ _ _, rfl⟩


/-! ## The launch and the log of `Run` -/

theorem testAndLog_spec {σ V : Type} (x : Externals V) (rnr : ExecRunner σ) (ro : RangeOrder)
    (vt : Tester V) (mode : Mode) (ctx : RunContext) (w : World σ) :
    ∃ (out : String) (testErr : Option Error) (s : σ),
      (∃ err, testAndLog x rnr ro vt mode ctx w =
        ((Result.zero, some err),
          ⟨s, w.events ++
            [Event.Print (runEcho ro
                (childEnv x ro vt mode ctx.cassettePath (toString accTestParallelism)
                  (String.intercalate " " ctx.testDirs) ctx.logPath) (runArgs ctx.testDirs)),
              Event.Run "go" (runArgs ctx.testDirs)
                (some (childEnv x ro vt mode ctx.cassettePath (toString accTestParallelism)
                  (String.intercalate " " ctx.testDirs) ctx.logPath)) out testErr,
              Event.PopDir (some err)]⟩)) ∨
      (∃ (previous : String) (rerr werr : Option Error),
        testAndLog x rnr ro vt mode ctx w =
        ((match werr with
          | some err =>
            (Result.zero, some ("error writing log: " ++ err ++ ", test output: " ++
              appendLog previous (loggedOutput mode out testErr)))
          | none => (collectResult ro (loggedOutput mode out testErr), testErr)),
          ⟨s, w.events ++
            [Event.Print (runEcho ro
                (childEnv x ro vt mode ctx.cassettePath (toString accTestParallelism)
                  (String.intercalate " " ctx.testDirs) ctx.logPath) (runArgs ctx.testDirs)),
              Event.Run "go" (runArgs ctx.testDirs)
                (some (childEnv x ro vt mode ctx.cassettePath (toString accTestParallelism)
                  (String.intercalate " " ctx.testDirs) ctx.logPath)) out testErr,
              Event.PopDir none,
              Event.ReadFile (x.join [vt.baseDir, "testlogs", mode.Lower ++ "_test.log"])
                previous rerr,
              Event.WriteFile (x.join [vt.baseDir, "testlogs", mode.Lower ++ "_test.log"])
                (appendLog previous (loggedOutput mode out testErr)) werr]⟩)) := by
  unfold testAndLog
  rcases h1 : rnr.Run "go" (runArgs ctx.testDirs)
    (some (childEnv x ro vt mode ctx.cassettePath (toString accTestParallelism)
      (String.intercalate " " ctx.testDirs) ctx.logPath)) w.state with ⟨⟨out, testErr⟩, s1⟩
  rcases h2 : rnr.PopDir s1 with ⟨_ | err, s2⟩
  · rcases h3 : rnr.ReadFile (x.join [vt.baseDir, "testlogs", mode.Lower ++ "_test.log"]) s2
      with ⟨⟨previous, rerr⟩, s3⟩
    rcases h4 : rnr.WriteFile (x.join [vt.baseDir, "testlogs", mode.Lower ++ "_test.log"])
      (appendLog previous (loggedOutput mode out testErr)) s3 with ⟨_ | werr, s4⟩
    · refine ⟨out, testErr, s4, Or.inr ⟨previous, rerr, none, ?_⟩⟩
      simp [World.Print, World.Run, World.PopDir, World.ReadFile, World.WriteFile, h1, h2, h3,
        h4]
    · refine ⟨out, testErr, s4, Or.inr ⟨previous, rerr, some werr, ?_⟩⟩
      simp [World.Print, World.Run, World.PopDir, World.ReadFile, World.WriteFile, h1, h2, h3,
        h4]
  · refine ⟨out, testErr, s2, Or.inl ⟨err, ?_⟩⟩
    simp [World.Print, World.Run, World.PopDir, h1, h2]


theorem Run_of_error {σ V : Type} [DecidableEq V] {x : Externals V} {rnr : ExecRunner σ}
    {ro : RangeOrder} {vt vt2 : Tester V} {opt : RunOptions V} {w w3 : World σ} {err : Error}
    (h : setupRun x rnr vt opt w = (Except.error err, vt2, w3)) :
    Run x rnr ro vt opt w = ((Result.zero, some err), vt2, w3) := by
  unfold Run
  rw [h]

theorem Run_of_ok {σ V : Type} [DecidableEq V] {x : Externals V} {rnr : ExecRunner σ}
    {ro : RangeOrder} {vt vt2 : Tester V} {opt : RunOptions V} {w w3 : World σ}
    {ctx : RunContext} (h : setupRun x rnr vt opt w = (Except.ok ctx, vt2, w3)) :
    Run x rnr ro vt opt w =
      ((testAndLog x rnr ro vt2 opt.Mode ctx w3).1, vt2,
        (testAndLog x rnr ro vt2 opt.Mode ctx w3).2) := by
  unfold Run
  rw [h]

theorem RunParallel_of_error {σ V : Type} [DecidableEq V] {x : Externals V}
    {rnr : ExecRunner σ} {ro : RangeOrder} {vt vt2 : Tester V} {opt : RunOptions V}
    {w w3 : World σ} {err : Error}
    (h : setupRunParallel x rnr vt opt w = (Except.error err, vt2, w3)) :
    RunParallel x rnr ro vt opt w = ((Result.zero, some err), vt2, w3) := by
  unfold RunParallel
  rw [h]

theorem RunParallel_of_ok {σ V : Type} [DecidableEq V] {x : Externals V} {rnr : ExecRunner σ}
    {ro : RangeOrder} {vt vt2 : Tester V} {opt : RunOptions V} {w w3 : World σ}
    {ctx : RunContext} (h : setupRunParallel x rnr vt opt w = (Except.ok ctx, vt2, w3)) :
    RunParallel x rnr ro vt opt w =
      ((fanOutAndLog x rnr ro vt2 opt.Mode opt.Tests ctx w3).1, vt2,
        (fanOutAndLog x rnr ro vt2 opt.Mode opt.Tests ctx w3).2) := by
  unfold RunParallel
  rw [h]

/-! ## The events of the launch phases -/

theorem isTestRun_of_isSetup {e : Event} (h : e.isSetup = true) : e.isTestRun = false := by
  cases e <;> simp [Event.isSetup, Event.isTestRun] at h ⊢
  rename_i name args env out err
  intro _
  rw [h.1]
  decide

theorem testAndLog_events {σ V : Type} (x : Externals V) (rnr : ExecRunner σ) (ro : RangeOrder)
    (vt : Tester V) (mode : Mode) (ctx : RunContext) (w : World σ) :
    ∃ l, (testAndLog x rnr ro vt mode ctx w).2.events = w.events ++ l ∧
      ∀ e ∈ l, e.isRemoveAll = false ∧
        (e.isTestRun = true → ∃ out err, e = Event.Run "go" (runArgs ctx.testDirs)
          (some (childEnv x ro vt mode ctx.cassettePath (toString accTestParallelism)
            (String.intercalate " " ctx.testDirs) ctx.logPath)) out err) := by
  obtain ⟨out, testErr, s2, ⟨err, ht⟩ | ⟨previous, rerr, werr, ht⟩⟩ :=
    testAndLog_spec x rnr ro vt mode ctx w
  · rw [ht]
    refine ⟨_, rfl, ?_⟩
    intro e he
    simp only [List.mem_cons, List.mem_singleton, List.not_mem_nil, or_false] at he
    rcases he with rfl | rfl | rfl
    · exact ⟨rfl, by simp [Event.isTestRun]⟩
    · exact ⟨rfl, fun _ => ⟨out, testErr, rfl⟩⟩
    · exact ⟨rfl, by simp [Event.isTestRun]⟩
  · rw [ht]
    refine ⟨_, rfl, ?_⟩
    intro e he
    simp only [List.mem_cons, List.mem_singleton, List.not_mem_nil, or_false] at he
    rcases he with rfl | rfl | rfl | rfl | rfl
    · exact ⟨rfl, by simp [Event.isTestRun]⟩
    · exact ⟨rfl, fun _ => ⟨out, testErr, rfl⟩⟩
    · exact ⟨rfl, by simp [Event.isTestRun]⟩
    · exact ⟨rfl, by simp [Event.isTestRun]⟩
    · exact ⟨rfl, by simp [Event.isTestRun]⟩

theorem runInParallel_events {σ V : Type} (x : Externals V) (rnr : ExecRunner σ)
    (ro : RangeOrder) (vt : Tester V) (mode : Mode) (testDir test logPath cassettePath : String)
    (w : World σ) :
    ∃ l, (runInParallel x rnr ro vt mode testDir test logPath cassettePath w).2.events =
        w.events ++ l ∧
      ∀ e ∈ l, e.isRemoveAll = false ∧
        (e.isTestRun = true → ∃ out err, e = Event.Run "go" (parallelArgs testDir test)
          (some (childEnv x ro vt mode cassettePath "1" testDir logPath)) out err) := by
  unfold runInParallel
  rcases h1 : rnr.Run "go" (parallelArgs testDir test)
    (some (childEnv x ro vt mode cassettePath "1" testDir logPath)) w.state
    with ⟨⟨out, testErr⟩, s1⟩
  rcases h2 : rnr.ReadFile (x.join [vt.baseDir, "testlogs", mode.Lower ++ "_build",
      test ++ "_" ++ mode.Lower ++ "_test.log"]) s1 with ⟨⟨previous, rerr⟩, s2⟩
  rcases h3 : rnr.WriteFile (x.join [vt.baseDir, "testlogs", mode.Lower ++ "_build",
      test ++ "_" ++ mode.Lower ++ "_test.log"])
      (if previous ≠ "" then previous ++ "\n" ++ loggedOutput mode out testErr
        else loggedOutput mode out testErr) s2 with ⟨werr, s3⟩
  refine ⟨[Event.Run "go" (parallelArgs testDir test)
      (some (childEnv x ro vt mode cassettePath "1" testDir logPath)) out testErr,
    Event.ReadFile (x.join [vt.baseDir, "testlogs", mode.Lower ++ "_build",
      test ++ "_" ++ mode.Lower ++ "_test.log"]) previous rerr,
    Event.WriteFile (x.join [vt.baseDir, "testlogs", mode.Lower ++ "_build",
      test ++ "_" ++ mode.Lower ++ "_test.log"])
      (if previous ≠ "" then previous ++ "\n" ++ loggedOutput mode out testErr
        else loggedOutput mode out testErr) werr], ?_, ?_⟩
  · simp only [World.Run, World.ReadFile, World.WriteFile, h1, h2, h3]
    cases werr <;> simp
  · intro e he
    simp only [List.mem_cons, List.mem_singleton, List.not_mem_nil, or_false] at he
    rcases he with rfl | rfl | rfl
    · exact ⟨rfl, fun _ => ⟨out, testErr, rfl⟩⟩
    · exact ⟨rfl, by simp [Event.isTestRun]⟩
    · exact ⟨rfl, by simp [Event.isTestRun]⟩


theorem runJobs_events {σ V : Type} (x : Externals V) (rnr : ExecRunner σ) (ro : RangeOrder)
    (vt : Tester V) (mode : Mode) (logPath cassettePath : String)
    (jobs : List (String × String)) :
    ∀ w : World σ, ∃ l,
      (runJobs x rnr ro vt mode logPath cassettePath jobs w).2.events = w.events ++ l ∧
      ∀ e ∈ l, e.isRemoveAll = false ∧
        (e.isTestRun = true → ∃ testDir test out err, (testDir, test) ∈ jobs ∧
          e = Event.Run "go" (parallelArgs testDir test)
            (some (childEnv x ro vt mode cassettePath "1" testDir logPath)) out err) := by
  induction jobs with
  | nil =>
    intro w
    exact ⟨[], by simp [runJobs], by simp⟩
  | cons job jobs ih =>
    intro w
    obtain ⟨testDir, test⟩ := job
    obtain ⟨l1, h1, q1⟩ :=
      runInParallel_events x rnr ro vt mode testDir test logPath cassettePath w
    rcases hj : runInParallel x rnr ro vt mode testDir test logPath cassettePath w
      with ⟨⟨out, errs⟩, w1⟩
    rw [hj] at h1
    simp only at h1
    obtain ⟨l2, h2, q2⟩ := ih w1
    rcases hr : runJobs x rnr ro vt mode logPath cassettePath jobs w1 with ⟨⟨outs, errs2⟩, w2⟩
    rw [hr] at h2
    simp only at h2
    refine ⟨l1 ++ l2, ?_, ?_⟩
    · simp only [runJobs, hj, hr, h2, h1, List.append_assoc]
    · intro e he
      rcases List.mem_append.mp he with he | he
      · obtain ⟨a, b⟩ := q1 e he
        refine ⟨a, fun ht => ?_⟩
        obtain ⟨o, er, rfl⟩ := b ht
        exact ⟨testDir, test, o, er, List.mem_cons_self _ _, rfl⟩
      · obtain ⟨a, b⟩ := q2 e he
        refine ⟨a, fun ht => ?_⟩
        obtain ⟨td, t, o, er, hmem, rfl⟩ := b ht
        exact ⟨td, t, o, er, List.mem_cons_of_mem _ hmem, rfl⟩

theorem fanOutAndLog_events {σ V : Type} (x : Externals V) (rnr : ExecRunner σ)
    (ro : RangeOrder) (vt : Tester V) (mode : Mode) (tests : List String) (ctx : RunContext)
    (w : World σ) :
    ∃ l, (fanOutAndLog x rnr ro vt mode tests ctx w).2.events = w.events ++ l ∧
      ∀ e ∈ l, e.isRemoveAll = false ∧
        (e.isTestRun = true → ∃ testDir test out err,
          (testDir, test) ∈ parallelJobsOf ctx.testDirs tests ∧
          e = Event.Run "go" (parallelArgs testDir test)
            (some (childEnv x ro vt mode ctx.cassettePath "1" testDir ctx.logPath)) out err) := by
  unfold fanOutAndLog
  obtain ⟨l1, h1, q1⟩ := runJobs_events x rnr ro vt mode ctx.logPath ctx.cassettePath
    (parallelJobsOf ctx.testDirs tests) w
  rcases hr : runJobs x rnr ro vt mode ctx.logPath ctx.cassettePath
    (parallelJobsOf ctx.testDirs tests) w with ⟨⟨outs, errs⟩, ⟨s1, ev1⟩⟩
  rw [hr] at h1
  simp only at h1
  subst h1
  have hquiet : ∀ (tail : List Event), (∀ e ∈ tail, e.isRemoveAll = false ∧ e.isTestRun = false) →
      ∀ e ∈ l1 ++ tail, e.isRemoveAll = false ∧
        (e.isTestRun = true → ∃ testDir test out err,
          (testDir, test) ∈ parallelJobsOf ctx.testDirs tests ∧
          e = Event.Run "go" (parallelArgs testDir test)
            (some (childEnv x ro vt mode ctx.cassettePath "1" testDir ctx.logPath)) out err) := by
    intro tail htail e he
    rcases List.mem_append.mp he with he | he
    · exact q1 e he
    · exact ⟨(htail e he).1, fun ht => by rw [(htail e he).2] at ht; cases ht⟩
  rcases h2 : rnr.PopDir s1 with ⟨_ | err, s2⟩
  · rcases h3 : rnr.WriteFile (x.join [vt.baseDir, "testlogs", mode.Lower ++ "_test.log"])
      (String.join outs) s2 with ⟨werr, s3⟩
    refine ⟨l1 ++ [Event.PopDir none,
      Event.WriteFile (x.join [vt.baseDir, "testlogs", mode.Lower ++ "_test.log"])
        (String.join outs) werr], ?_, hquiet _ ?_⟩
    · simp only [World.PopDir, World.WriteFile, h2, h3]
      cases werr <;> simp
    · intro e he
      simp only [List.mem_cons, List.mem_singleton, List.not_mem_nil, or_false] at he
      rcases he with rfl | rfl <;> exact ⟨rfl, rfl⟩
  · refine ⟨l1 ++ [Event.PopDir (some err)], ?_, hquiet _ ?_⟩
    · simp only [World.PopDir, h2, List.append_assoc]
    · intro e he
      simp only [List.mem_singleton] at he
      subst he
      exact ⟨rfl, rfl⟩


/-! ## A whole call -/

theorem Run_eq_callWith {σ V : Type} [DecidableEq V] (x : Externals V) (rnr : ExecRunner σ)
    (ro : RangeOrder) (vt : Tester V) (opt : RunOptions V) (w : World σ) :
    Run x rnr ro vt opt w =
      callWith (setupRun x rnr vt opt w)
        (fun vt2 ctx w3 => testAndLog x rnr ro vt2 opt.Mode ctx w3) := rfl

theorem RunParallel_eq_callWith {σ V : Type} [DecidableEq V] (x : Externals V)
    (rnr : ExecRunner σ) (ro : RangeOrder) (vt : Tester V) (opt : RunOptions V) (w : World σ) :
    RunParallel x rnr ro vt opt w =
      callWith (setupRunParallel x rnr vt opt w)
        (fun vt2 ctx w3 => fanOutAndLog x rnr ro vt2 opt.Mode opt.Tests ctx w3) := rfl

theorem callWith_replaying {σ V : Type} [DecidableEq V] {x : Externals V} {rnr : ExecRunner σ}
    {vt : Tester V} {opt : RunOptions V} {s : σ}
    {r : Except Error RunContext × Tester V × World σ}
    (launch : Tester V → RunContext → World σ → (Result × Option Error) × World σ)
    (hset : SetupOutcome x rnr vt opt (World.start s) r)
    (hlaunch : ∀ vt2 ctx w3, ∃ l, (launch vt2 ctx w3).2.events = w3.events ++ l ∧
      ∀ e ∈ l, e.isRemoveAll = false)
    (hmode : opt.Mode = Mode.Replaying) :
    (∀ e ∈ (callWith r launch).2.2.events, e.isRemoveAll = false) ∧
    (callWith r launch).2.1.cassettePaths = vt.cassettePaths ∧
    (mapGet vt.cassettePaths opt.Version = none →
      (∃ err, (callWith r launch).1.2 = some err) ∧
      ∀ e ∈ (callWith r launch).2.2.events, e.isTestRun = false) := by
  obtain ⟨⟨l, hl, hq⟩, hpaths, hnone⟩ := hset.replaying hmode
  simp only [World.start, List.nil_append] at hl
  obtain ⟨rr, vt2, w3⟩ := r
  cases rr with
  | error err =>
    simp only [callWith] at hl hpaths ⊢
    rw [hl]
    exact ⟨fun e he => (hq e he).2, hpaths,
      fun _ => ⟨⟨err, rfl⟩, fun e he => isTestRun_of_isSetup (hq e he).1⟩⟩
  | ok ctx =>
    simp only [callWith] at hl hpaths hnone ⊢
    obtain ⟨l2, h2, q2⟩ := hlaunch vt2 ctx w3
    refine ⟨?_, hpaths, fun h => ?_⟩
    · rw [h2, hl]
      intro e he
      rcases List.mem_append.mp he with he | he
      · exact (hq e he).2
      · exact q2 e he
    · obtain ⟨err, herr⟩ := hnone h
      cases herr

theorem callWith_recording {σ V : Type} [DecidableEq V] {x : Externals V} {rnr : ExecRunner σ}
    {vt : Tester V} {opt : RunOptions V} {s : σ}
    {r : Except Error RunContext × Tester V × World σ}
    (launch : Tester V → RunContext → World σ → (Result × Option Error) × World σ)
    (hset : SetupOutcome x rnr vt opt (World.start s) r)
    (hlaunch : ∀ vt2 ctx w3, ∃ l, (launch vt2 ctx w3).2.events = w3.events ++ l)
    (hmode : opt.Mode = Mode.Recording) (e : Event)
    (he : e ∈ (callWith r launch).2.2.events) (ht : e.isTestRun = true) :
    (∃ pre post, (callWith r launch).2.2.events = pre ++
        [Event.RemoveAll (x.join [vt.baseDir, "cassettes", x.versionString opt.Version]) none,
          Event.Mkdir (x.join [vt.baseDir, "cassettes", x.versionString opt.Version]) none] ++
        post ∧ ∀ e2 ∈ pre, e2.isTestRun = false) ∧
    mapGet (callWith r launch).2.1.cassettePaths opt.Version =
      some (x.join [vt.baseDir, "cassettes", x.versionString opt.Version]) := by
  obtain ⟨l, hl, hq⟩ := hset.events
  simp only [World.start, List.nil_append] at hl
  rcases hr : r with ⟨rr, vt2, w3⟩
  cases rr with
  | error err =>
    rw [hr] at he hl
    simp only [callWith] at he hl
    rw [hl] at he
    rw [isTestRun_of_isSetup (hq e he)] at ht
    cases ht
  | ok ctx =>
    have hrec := hset.recording hmode (show r.1 = Except.ok ctx by rw [hr])
    rw [hr] at hrec
    obtain ⟨⟨pre, hpre, qpre⟩, hget, -⟩ := hrec
    simp only [World.start, List.nil_append] at hpre
    obtain ⟨l2, h2⟩ := hlaunch vt2 ctx w3
    simp only [callWith]
    refine ⟨⟨pre, l2, ?_, fun e2 he2 => isTestRun_of_isSetup (qpre e2 he2).1⟩, hget⟩
    rw [h2, hpre]


/-! ## The environment of the child process and its echo -/

theorem mapGet_eq_none_iff {κ ν : Type} [DecidableEq κ] (m : List (κ × ν)) (k : κ) :
    mapGet m k = none ↔ k ∉ m.map Prod.fst := by
  induction m with
  | nil => simp [mapGet]
  | cons p m ih =>
    obtain ⟨k1, v1⟩ := p
    by_cases h : k1 = k
    · simp [mapGet, h]
    · simp [mapGet, h, ih, Ne.symm h]

theorem keys_mapSet {κ ν : Type} [DecidableEq κ] (m : List (κ × ν)) (k : κ) (v : ν) :
    (mapSet m k v).map Prod.fst =
      if k ∈ m.map Prod.fst then m.map Prod.fst else m.map Prod.fst ++ [k] := by
  induction m with
  | nil => simp [mapSet]
  | cons p m ih =>
    obtain ⟨k1, v1⟩ := p
    by_cases h : k1 = k
    · simp [mapSet, h]
    · simp only [mapSet, h, if_false, List.map_cons, ih, List.mem_cons, Ne.symm h, false_or]
      split_ifs <;> simp

/-- The loop `for k, v := range src { dst[k] = v }` over keys `ks`, each visited
with the value `f k`: afterwards a visited key holds `f k`, any other key what it
held before. -/
theorem mapGet_foldl_mapSet {ν : Type} (f : String → ν) (ks : List String) :
    ∀ (base : List (String × ν)) (k : String),
      mapGet ((ks.map (fun k => (k, f k))).foldl (fun env p => mapSet env p.1 p.2) base) k =
        if k ∈ ks then some (f k) else mapGet base k := by
  induction ks with
  | nil => intro base k; simp
  | cons k1 ks ih =>
    intro base k
    simp only [List.map_cons, List.foldl_cons, ih, List.mem_cons]
    by_cases h : k ∈ ks
    · simp [h]
    · by_cases h1 : k = k1
      · subst h1
        simp [h, mapGet_mapSet_self]
      · simp [h, h1, mapGet_mapSet_of_ne _ _ (Ne.symm h1)]

theorem mapGet_childEnv {V : Type} (x : Externals V) (ro : RangeOrder) (vt : Tester V)
    (mode : Mode) (cassettePath parallelism testDirectory logPath k : String) :
    mapGet (childEnv x ro vt mode cassettePath parallelism testDirectory logPath) k =
      match mapGet vt.env k with
      | some v => some v
      | none => mapGet (withCredentials x vt
          (builtinEnv x vt mode cassettePath parallelism testDirectory logPath)) k := by
  unfold childEnv rangeMap
  rw [mapGet_foldl_mapSet (fun k => (mapGet vt.env k).getD "")]
  by_cases h : k ∈ ro.iter (vt.env.map Prod.fst)
  · have h2 : k ∈ vt.env.map Prod.fst := (ro.perm _).mem_iff.mp h
    have h3 : mapGet vt.env k ≠ none := fun e => (mapGet_eq_none_iff _ _).mp e h2
    rw [if_pos h]
    cases hv : mapGet vt.env k with
    | none => exact absurd hv h3
    | some v => rfl
  · have h2 : k ∉ vt.env.map Prod.fst := fun e => h ((ro.perm _).mem_iff.mpr e)
    rw [if_neg h, (mapGet_eq_none_iff _ _).mpr h2]

theorem foldl_append_eq_join (lines : List String) :
    ∀ acc : String, lines.foldl (fun printed l => printed ++ l) acc = acc ++ String.join lines := by
  induction lines with
  | nil =>
    intro acc
    simp [String.join]
  | cons l ls ih =>
    intro acc
    rw [List.foldl_cons, ih]
    have : String.join (l :: ls) = l ++ String.join ls := by
      simp only [String.join, List.foldl_cons]
      rw [ih, ih]
      simp [String.append_assoc]
    rw [this, String.append_assoc]

theorem printedEnv_eq_join (ro : RangeOrder) (env : List (String × String)) :
    printedEnv ro env =
      String.join ((ro.iter (env.map Prod.fst)).map
        (fun k => echoLine k ((mapGet env k).getD ""))) := by
  unfold printedEnv rangeMap
  rw [List.foldl_map]
  have := foldl_append_eq_join ((ro.iter (env.map Prod.fst)).map
    (fun k => echoLine k ((mapGet env k).getD ""))) ""
  rw [List.foldl_map] at this
  rw [this]
  simp

theorem echoLine_hidden {ev : String} (h : mapGet safeToLogTable ev ≠ some true) (val : String) :
    echoLine ev val = ev ++ "={hidden}\n" := by
  have : safeToLog ev = false := by
    unfold safeToLog
    cases hv : mapGet safeToLogTable ev with
    | none => rfl
    | some b =>
      cases b
      · rfl
      · exact absurd hv h
  simp [echoLine, this, String.append_assoc]

theorem printedEnv_congr (ro : RangeOrder) {env1 env2 : List (String × String)}
    (hkeys : env1.map Prod.fst = env2.map Prod.fst)
    (hvals : ∀ ev, mapGet safeToLogTable ev = some true → mapGet env1 ev = mapGet env2 ev) :
    printedEnv ro env1 = printedEnv ro env2 := by
  rw [printedEnv_eq_join, printedEnv_eq_join, hkeys]
  congr 1
  apply List.map_congr_left
  intro k _
  by_cases h : mapGet safeToLogTable k = some true
  · rw [hvals k h]
  · rw [echoLine_hidden h, echoLine_hidden h]


theorem childEnv_congr {V : Type} (x : Externals V) (ro : RangeOrder) {vt vt2 : Tester V}
    (h1 : vt2.env = vt.env) (h2 : vt2.baseDir = vt.baseDir) (h3 : vt2.saKeyPath = vt.saKeyPath)
    (mode : Mode) (cassettePath parallelism testDirectory logPath : String) :
    childEnv x ro vt2 mode cassettePath parallelism testDirectory logPath =
      childEnv x ro vt mode cassettePath parallelism testDirectory logPath := by
  simp only [childEnv, withCredentials, builtinEnv, h1, h2, h3]

theorem callWith_testRun {σ V : Type} [DecidableEq V] {x : Externals V} {rnr : ExecRunner σ}
    {vt : Tester V} {opt : RunOptions V} {s : σ}
    {r : Except Error RunContext × Tester V × World σ}
    (launch : Tester V → RunContext → World σ → (Result × Option Error) × World σ)
    (hset : SetupOutcome x rnr vt opt (World.start s) r) (P : Event → Prop)
    (hlaunch : ∀ vt2 ctx w3, vt2.env = vt.env → vt2.baseDir = vt.baseDir →
      vt2.saKeyPath = vt.saKeyPath → ∃ l, (launch vt2 ctx w3).2.events = w3.events ++ l ∧
        ∀ e ∈ l, e.isTestRun = true → P e)
    (e : Event) (he : e ∈ (callWith r launch).2.2.events) (ht : e.isTestRun = true) : P e := by
  obtain ⟨l, hl, hq⟩ := hset.events
  obtain ⟨t1, t2, t3⟩ := hset.tester
  simp only [World.start, List.nil_append] at hl
  obtain ⟨rr, vt2, w3⟩ := r
  cases rr with
  | error err =>
    simp only [callWith] at he hl
    rw [hl] at he
    rw [isTestRun_of_isSetup (hq e he)] at ht
    cases ht
  | ok ctx =>
    simp only [callWith] at he hl t1 t2 t3
    obtain ⟨l2, h2, q2⟩ := hlaunch vt2 ctx w3 t1 t2 t3
    rw [h2, hl] at he
    rcases List.mem_append.mp he with he | he
    · rw [isTestRun_of_isSetup (hq e he)] at ht
      cases ht
    · exact q2 e he ht


/-- A panic line is collected when it is the first line of the text, and only
then: here the second panic line is lost. -/
theorem collectResult_panic_first_line (ro : RangeOrder) :
    (collectResult ro "panic: boom\n--- PASS: TestAccFoo\npanic: again\n").Panics =
      ["panic: boom"] := by
  rw [collectResult_order ro RangeOrder.insertion]
  decide

theorem Mode_Upper_eq :
    Mode.Recording.Upper = "RECORDING" ∧ Mode.Replaying.Upper = "REPLAYING" := by
  decide

/-! ## The result collector: theorems of the specification -/

/-- C1, as stated, fails: the text whose only line is `--- PASS: TestFoo` holds
one PASS line with one name, and `collectResult` returns an empty `PassedTests`,
because the expression of line 70 only accepts names that begin with `TestAcc`. -/
theorem collectResult_skips_other_names :
    textLines "--- PASS: TestFoo" = ["--- PASS: TestFoo"] ∧
    (collectResult RangeOrder.insertion "--- PASS: TestFoo").PassedTests = [] := by
  decide

/-- C1, amended: let the names be test names of the expression (`TestAcc`
followed by one or more word characters) and the marker lines be `--- PASS: name`
or `--- FAIL: name` followed by the end of the line or a rune outside `\w`. If the
PASS marker lines of the text are those of the pairwise distinct names `passed`
and its FAIL marker lines those of the pairwise distinct names `failed`, then
`PassedTests` has exactly the entries `passed`, `FailedTests` exactly the entries
`failed`, and both lists are sorted ascending. -/
theorem collectResult_passed_failed_exact (ro : RangeOrder) (output : String)
    (passed failed : List String) (hpd : passed.Nodup) (hfd : failed.Nodup)
    (hp : ∀ n ∈ passed, IsTestName n ∧ ∃ l ∈ textLines output, IsTestMarker "PASS" n l)
    (hpo : ∀ l ∈ textLines output, ∀ n, IsTestName n → IsTestMarker "PASS" n l → n ∈ passed)
    (hf : ∀ n ∈ failed, IsTestName n ∧ ∃ l ∈ textLines output, IsTestMarker "FAIL" n l)
    (hfo : ∀ l ∈ textLines output, ∀ n, IsTestName n → IsTestMarker "FAIL" n l → n ∈ failed) :
    (collectResult ro output).PassedTests.length = passed.length ∧
    (collectResult ro output).FailedTests.length = failed.length ∧
    (collectResult ro output).PassedTests.Perm passed ∧
    (collectResult ro output).FailedTests.Perm failed ∧
    (collectResult ro output).PassedTests.Sorted (fun a b => a ≤ b) ∧
    (collectResult ro output).FailedTests.Sorted (fun a b => a ≤ b) := by
  have hP : IsStatus "PASS" := Or.inl rfl
  have hF : IsStatus "FAIL" := Or.inr (Or.inl rfl)
  have pp : (collectResult ro output).PassedTests.Perm passed := by
    refine (List.perm_ext_iff_of_nodup (tests_nodup ro output hP) hpd).mpr (fun x => ?_)
    show x ∈ (collectResult ro output).tests "PASS" ↔ _
    rw [mem_tests hP]
    exact ⟨fun ⟨hn, l, hl, hm⟩ => hpo l hl x hn hm, fun hx => hp x hx⟩
  have pf : (collectResult ro output).FailedTests.Perm failed := by
    refine (List.perm_ext_iff_of_nodup (tests_nodup ro output hF) hfd).mpr (fun x => ?_)
    show x ∈ (collectResult ro output).tests "FAIL" ↔ _
    rw [mem_tests hF]
    exact ⟨fun ⟨hn, l, hl, hm⟩ => hfo l hl x hn hm, fun hx => hf x hx⟩
  exact ⟨pp.length_eq, pf.length_eq, pp, pf, tests_sorted ro output hP, tests_sorted ro output hF⟩


/-- Witness of C1 (amended): two PASS lines and one FAIL line, one of them with
the duration that `go test` prints after the name. -/
theorem collectResult_passed_failed_exact_witness :
    (collectResult RangeOrder.reversed
        "--- PASS: TestAccB\n--- FAIL: TestAccC (0.1s)\n--- PASS: TestAccA").PassedTests.length
      = 2 ∧
    (collectResult RangeOrder.reversed
        "--- PASS: TestAccB\n--- FAIL: TestAccC (0.1s)\n--- PASS: TestAccA").FailedTests.length
      = 1 := by
  have hP : IsStatus "PASS" := Or.inl rfl
  have hF : IsStatus "FAIL" := Or.inr (Or.inl rfl)
  have key := collectResult_passed_failed_exact RangeOrder.reversed
    "--- PASS: TestAccB\n--- FAIL: TestAccC (0.1s)\n--- PASS: TestAccA"
    ["TestAccB", "TestAccA"] ["TestAccC"] (by decide) (by decide)
    (fun n hn => (@mem_tests RangeOrder.insertion _ _ _ hP).mp
      (by revert n; decide))
    (fun l hl n hn hm => by
      have := (@mem_tests RangeOrder.insertion _ _ _ hP).mpr ⟨hn, l, hl, hm⟩
      revert this
      have e : (collectResult RangeOrder.insertion
          "--- PASS: TestAccB\n--- FAIL: TestAccC (0.1s)\n--- PASS: TestAccA").tests "PASS" =
          ["TestAccA", "TestAccB"] := by decide
      rw [e]
      simp only [List.mem_cons, List.mem_singleton, List.not_mem_nil, or_false]
      tauto)
    (fun n hn => (@mem_tests RangeOrder.insertion _ _ _ hF).mp
      (by revert n; decide))
    (fun l hl n hn hm => by
      have := (@mem_tests RangeOrder.insertion _ _ _ hF).mpr ⟨hn, l, hl, hm⟩
      revert this
      have e : (collectResult RangeOrder.insertion
          "--- PASS: TestAccB\n--- FAIL: TestAccC (0.1s)\n--- PASS: TestAccA").tests "FAIL" =
          ["TestAccC"] := by decide
      rw [e]
      simp only [List.mem_cons, List.mem_singleton, List.not_mem_nil, or_false]
      tauto)
  exact ⟨key.1, key.2.1⟩

/-- C2, as stated, fails: the text with the lines `--- PASS: TestFoo` and
`--- FAIL: TestFoo` puts the name `TestFoo` in neither `PassedTests` nor
`FailedTests`, because it does not begin with `TestAcc`. -/
theorem collectResult_both_lines_other_name :
    "--- PASS: TestFoo" ∈ textLines "--- PASS: TestFoo\n--- FAIL: TestFoo" ∧
    "--- FAIL: TestFoo" ∈ textLines "--- PASS: TestFoo\n--- FAIL: TestFoo" ∧
    "TestFoo" ∉
      (collectResult RangeOrder.insertion "--- PASS: TestFoo\n--- FAIL: TestFoo").PassedTests ∧
    "TestFoo" ∉
      (collectResult RangeOrder.insertion "--- PASS: TestFoo\n--- FAIL: TestFoo").FailedTests := by
  decide

/-- C2, amended: for every text and every test name `T` of the expression
(`TestAcc` followed by one or more word characters), if the text has a marker
line `--- PASS: T` and a marker line `--- FAIL: T`, then `T` is a member of
`PassedTests` and of `FailedTests`. The statuses do not interact: a marker line
`--- PASS: T` alone puts `T` in `PassedTests`, a marker line `--- FAIL: T` alone
puts it in `FailedTests`, and a marker line `--- SKIP: T` alone puts it in
`SkippedTests`, whatever other markers `T` has. -/
theorem collectResult_no_precedence (ro : RangeOrder) (output T : String)
    (hT : IsTestName T) :
    ((∃ l ∈ textLines output, IsTestMarker "PASS" T l) →
      (∃ l ∈ textLines output, IsTestMarker "FAIL" T l) →
      T ∈ (collectResult ro output).PassedTests ∧
      T ∈ (collectResult ro output).FailedTests) ∧
    ((∃ l ∈ textLines output, IsTestMarker "PASS" T l) →
      T ∈ (collectResult ro output).PassedTests) ∧
    ((∃ l ∈ textLines output, IsTestMarker "FAIL" T l) →
      T ∈ (collectResult ro output).FailedTests) ∧
    ((∃ l ∈ textLines output, IsTestMarker "SKIP" T l) →
      T ∈ (collectResult ro output).SkippedTests) :=
  ⟨fun hp hf => ⟨(@mem_tests ro output "PASS" T (Or.inl rfl)).mpr ⟨hT, hp⟩,
      (@mem_tests ro output "FAIL" T (Or.inr (Or.inl rfl))).mpr ⟨hT, hf⟩⟩,
    fun hp => (@mem_tests ro output "PASS" T (Or.inl rfl)).mpr ⟨hT, hp⟩,
    fun hf => (@mem_tests ro output "FAIL" T (Or.inr (Or.inl rfl))).mpr ⟨hT, hf⟩,
    fun hs => (@mem_tests ro output "SKIP" T (Or.inr (Or.inr rfl))).mpr ⟨hT, hs⟩⟩

/-- Witness of C2 (amended): `TestAccFoo` passes, then fails in the same text. -/
theorem collectResult_no_precedence_witness :
    "TestAccFoo" ∈ (collectResult RangeOrder.insertion
      "--- PASS: TestAccFoo\n--- FAIL: TestAccFoo (1.00s)").PassedTests ∧
    "TestAccFoo" ∈ (collectResult RangeOrder.insertion
      "--- PASS: TestAccFoo\n--- FAIL: TestAccFoo (1.00s)").FailedTests :=
  (collectResult_no_precedence RangeOrder.insertion
    "--- PASS: TestAccFoo\n--- FAIL: TestAccFoo (1.00s)" "TestAccFoo"
    ⟨"Foo", ⟨by decide, by decide⟩, by decide⟩).1
    ⟨"--- PASS: TestAccFoo", by decide, "", by decide, by decide⟩
    ⟨"--- FAIL: TestAccFoo (1.00s)", by decide, " (1.00s)", by decide, by decide⟩

/-- C3, the code at the example of the specification: the three status lists
are as the claim says, but `Panics` is empty, because the expression of line 74
has no `(?m)` flag and the text does not begin with `panic: `. -/
theorem collectResult_spec_example (ro : RangeOrder) :
    collectResult ro
        "--- PASS: TestAccFoo\n    --- FAIL: TestAccFoo/bar\n--- FAIL: TestAccFoo\npanic: boom\n" =
      { PassedTests := ["TestAccFoo"], FailedTests := ["TestAccFoo"], SkippedTests := [],
        PassedSubtests := [], FailedSubtests := ["TestAccFoo__bar"], SkippedSubtests := [],
        Panics := [] } := by
  rw [collectResult_order ro RangeOrder.insertion]
  decide


/-- C4, as stated, fails: on the line `    --- FAIL: TestAccFoo/bar-baz` the
subtest name is `bar-baz`, and `collectResult` records `TestAccFoo__bar`, not
`TestAccFoo__bar-baz`: the group `(\w+)` stops at the first rune outside `\w`. -/
theorem collectResult_subtest_name_cut :
    textLines "    --- FAIL: TestAccFoo/bar-baz" =
      ["    --- FAIL: " ++ "TestAccFoo" ++ "/" ++ "bar-baz"] ∧
    (collectResult RangeOrder.insertion "    --- FAIL: TestAccFoo/bar-baz").FailedSubtests =
      ["TestAccFoo__bar"] ∧
    "TestAccFoo" ++ "__" ++ "bar-baz" ∉
      (collectResult RangeOrder.insertion "    --- FAIL: TestAccFoo/bar-baz").FailedSubtests := by
  decide

/-- C4, amended: let `T` be a test name of the expression (`TestAcc` followed by
one or more word characters), `S` a word (one or more word characters) and `l`
a line made of four spaces, `--- kind: T/S` and then the end of the line or a
rune outside `\w`. In every text that has the line `l` (after the lines `pre`
and before the lines `post`), `T__S` is in the subtest list of `kind`, and the
three top-level lists are those of the text without the line `l`. -/
theorem collectResult_subtest_line (ro : RangeOrder) (pre post : List String)
    (l kind T S : String) (hlines : ∀ x ∈ pre ++ l :: post, '\n' ∉ x.toList)
    (hk : IsStatus kind) (hT : IsTestName T) (hS : IsWord S)
    (hl : IsSubtestMarker kind T S l) :
    T ++ "__" ++ S ∈ (collectResult ro (unlines (pre ++ l :: post))).subtests kind ∧
    (collectResult ro (unlines (pre ++ l :: post))).PassedTests =
      (collectResult ro (unlines (pre ++ post))).PassedTests ∧
    (collectResult ro (unlines (pre ++ l :: post))).FailedTests =
      (collectResult ro (unlines (pre ++ post))).FailedTests ∧
    (collectResult ro (unlines (pre ++ l :: post))).SkippedTests =
      (collectResult ro (unlines (pre ++ post))).SkippedTests := by
  refine ⟨?_, tests_unlines_frame ro pre post l kind T S hlines hl (Or.inl rfl),
    tests_unlines_frame ro pre post l kind T S hlines hl (Or.inr (Or.inl rfl)),
    tests_unlines_frame ro pre post l kind T S hlines hl (Or.inr (Or.inr rfl))⟩
  rw [mem_subtests hk]
  refine ⟨T, S, hT, hS, rfl, l, ?_, hl⟩
  rw [textLines_unlines (by simp) hlines]
  simp

/-- Witness of C4 (amended): a failed subtest between a `RUN` line and the
failure of its test. -/
theorem collectResult_subtest_line_witness :
    "TestAccFoo" ++ "__" ++ "bar" ∈
      (collectResult RangeOrder.insertion
        (unlines (["=== RUN   TestAccFoo"] ++
          "    --- FAIL: TestAccFoo/bar (0.00s)" :: ["--- FAIL: TestAccFoo (0.00s)"]))).subtests
        "FAIL" ∧
    (collectResult RangeOrder.insertion
        (unlines (["=== RUN   TestAccFoo"] ++
          "    --- FAIL: TestAccFoo/bar (0.00s)" :: ["--- FAIL: TestAccFoo (0.00s)"]))).FailedTests =
      (collectResult RangeOrder.insertion
        (unlines (["=== RUN   TestAccFoo"] ++ ["--- FAIL: TestAccFoo (0.00s)"]))).FailedTests :=
  have h := collectResult_subtest_line RangeOrder.insertion ["=== RUN   TestAccFoo"]
    ["--- FAIL: TestAccFoo (0.00s)"] "    --- FAIL: TestAccFoo/bar (0.00s)" "FAIL"
    "TestAccFoo" "bar" (by decide) (Or.inr (Or.inl rfl)) ⟨"Foo", ⟨by decide, by decide⟩, by decide⟩
    ⟨by decide, by decide⟩ ⟨" (0.00s)", by decide, by decide⟩
  ⟨h.1, h.2.2.1⟩

/-- C5: for every text and every iteration order of the name sets, each of the
seven lists of the `Result` is sorted ascending, each of the six status lists
has no duplicate entry, and the `Result` is the same for every other iteration
order: it is a function of the text alone. -/
theorem collectResult_sorted_nodup (ro : RangeOrder) (output : String) :
    ((collectResult ro output).PassedTests.Sorted (fun a b => a ≤ b) ∧
      (collectResult ro output).FailedTests.Sorted (fun a b => a ≤ b) ∧
      (collectResult ro output).SkippedTests.Sorted (fun a b => a ≤ b) ∧
      (collectResult ro output).PassedSubtests.Sorted (fun a b => a ≤ b) ∧
      (collectResult ro output).FailedSubtests.Sorted (fun a b => a ≤ b) ∧
      (collectResult ro output).SkippedSubtests.Sorted (fun a b => a ≤ b) ∧
      (collectResult ro output).Panics.Sorted (fun a b => a ≤ b)) ∧
    ((collectResult ro output).PassedTests.Nodup ∧
      (collectResult ro output).FailedTests.Nodup ∧
      (collectResult ro output).SkippedTests.Nodup ∧
      (collectResult ro output).PassedSubtests.Nodup ∧
      (collectResult ro output).FailedSubtests.Nodup ∧
      (collectResult ro output).SkippedSubtests.Nodup) ∧
    ∀ ro2 : RangeOrder, collectResult ro2 output = collectResult ro output := by
  have hP : IsStatus "PASS" := Or.inl rfl
  have hF : IsStatus "FAIL" := Or.inr (Or.inl rfl)
  have hS : IsStatus "SKIP" := Or.inr (Or.inr rfl)
  exact ⟨⟨tests_sorted ro output hP, tests_sorted ro output hF, tests_sorted ro output hS,
      subtests_sorted ro output hP, subtests_sorted ro output hF, subtests_sorted ro output hS,
      sortStrings_sorted _⟩,
    ⟨tests_nodup ro output hP, tests_nodup ro output hF, tests_nodup ro output hS,
      subtests_nodup ro output hP, subtests_nodup ro output hF, subtests_nodup ro output hS⟩,
    fun ro2 => collectResult_order ro2 ro output⟩


/-- C8, as stated, fails: when no test directory is given, `Run` launches the
child process `go list ./...` before the fixture-directory step. In Recording
mode that launch comes before `RemoveAll`; in Replaying mode without fetched
cassettes the call returns `cassettes not fetched` after it has launched that
child process. -/
theorem Run_lists_packages_before_step :
    (Run demoExternals simRunner RangeOrder.insertion demoTester
        ⟨Mode.Recording, DemoVersion.ga, [], []⟩
        (World.start ⟨[], [], "ok", none⟩)).2.2.events.take 5 =
      [Event.Mkdir "base/testlogs/recording/ga" none, Event.PushDir "repo" none,
        Event.Run "go" ["list", "./..."] none "./google/a\n./google/b" none,
        Event.RemoveAll "base/cassettes/ga" none, Event.Mkdir "base/cassettes/ga" none] ∧
    (Run demoExternals simRunner RangeOrder.insertion { demoTester with cassettePaths := [] }
        ⟨Mode.Replaying, DemoVersion.ga, [], []⟩
        (World.start ⟨[], [], "ok", none⟩)).2.2.events =
      [Event.Mkdir "base/testlogs/replaying/ga" none, Event.PushDir "repo" none,
        Event.Run "go" ["list", "./..."] none "./google/a\n./google/b" none] ∧
    (Run demoExternals simRunner RangeOrder.insertion { demoTester with cassettePaths := [] }
        ⟨Mode.Replaying, DemoVersion.ga, [], []⟩
        (World.start ⟨[], [], "ok", none⟩)).1.2 =
      some "cassettes not fetched for version ga" := by
  decide

/-- C8, amended: the fixture-directory step by mode. In Recording mode the step calls
`RemoveAll` on `<baseDir>/cassettes/<version>`, then `Mkdir` on it, then
registers it as the cassette path of the version (and returns an error as soon
as one of the two calls fails); in `Run` and in `RunParallel` every launch of a
`go test` child process comes after a successful `RemoveAll` and `Mkdir` of that
path, with the path registered. In Replaying mode the step calls nothing and
leaves the tester as it is, and returns the error `cassettes not fetched` when
no path is registered; `Run` and `RunParallel` then call no `RemoveAll` at
all, leave `cassettePaths` unchanged and, when no path is registered, return an
error without launching a `go test` child process. -/
theorem cassetteStep_by_mode {σ V : Type} [DecidableEq V] (x : Externals V)
    (rnr : ExecRunner σ) (ro : RangeOrder) (vt : Tester V) (opt : RunOptions V) (s : σ) :
    (opt.Mode = Mode.Recording →
      (∀ w : World σ,
        (∃ err s1, cassetteStep x rnr vt opt w =
          ((x.join [vt.baseDir, "cassettes", x.versionString opt.Version],
              some ("error removing cassettes: " ++ err)), vt,
            ⟨s1, w.events ++ [Event.RemoveAll
              (x.join [vt.baseDir, "cassettes", x.versionString opt.Version]) (some err)]⟩)) ∨
        (∃ err s2, cassetteStep x rnr vt opt w =
          ((x.join [vt.baseDir, "cassettes", x.versionString opt.Version],
              some ("error creating cassette dir: " ++ err)), vt,
            ⟨s2, w.events ++
              [Event.RemoveAll (x.join [vt.baseDir, "cassettes", x.versionString opt.Version])
                  none,
                Event.Mkdir (x.join [vt.baseDir, "cassettes", x.versionString opt.Version])
                  (some err)]⟩)) ∨
        (∃ s2, cassetteStep x rnr vt opt w =
          ((x.join [vt.baseDir, "cassettes", x.versionString opt.Version], none),
            { vt with cassettePaths := (mapSet vt.cassettePaths opt.Version
                (x.join [vt.baseDir, "cassettes", x.versionString opt.Version])) },
            ⟨s2, w.events ++
              [Event.RemoveAll (x.join [vt.baseDir, "cassettes", x.versionString opt.Version])
                  none,
                Event.Mkdir (x.join [vt.baseDir, "cassettes", x.versionString opt.Version])
                  none]⟩))) ∧
      (∀ e ∈ (Run x rnr ro vt opt (World.start s)).2.2.events, e.isTestRun = true →
        (∃ pre post, (Run x rnr ro vt opt (World.start s)).2.2.events = pre ++
            [Event.RemoveAll (x.join [vt.baseDir, "cassettes", x.versionString opt.Version])
                none,
              Event.Mkdir (x.join [vt.baseDir, "cassettes", x.versionString opt.Version])
                none] ++ post ∧ ∀ e2 ∈ pre, e2.isTestRun = false) ∧
        mapGet (Run x rnr ro vt opt (World.start s)).2.1.cassettePaths opt.Version =
          some (x.join [vt.baseDir, "cassettes", x.versionString opt.Version])) ∧
      (∀ e ∈ (RunParallel x rnr ro vt opt (World.start s)).2.2.events, e.isTestRun = true →
        (∃ pre post, (RunParallel x rnr ro vt opt (World.start s)).2.2.events = pre ++
            [Event.RemoveAll (x.join [vt.baseDir, "cassettes", x.versionString opt.Version])
                none,
              Event.Mkdir (x.join [vt.baseDir, "cassettes", x.versionString opt.Version])
                none] ++ post ∧ ∀ e2 ∈ pre, e2.isTestRun = false) ∧
        mapGet (RunParallel x rnr ro vt opt (World.start s)).2.1.cassettePaths opt.Version =
          some (x.join [vt.baseDir, "cassettes", x.versionString opt.Version]))) ∧
    (opt.Mode = Mode.Replaying →
      (∀ w : World σ, (cassetteStep x rnr vt opt w).2 = (vt, w) ∧
        (mapGet vt.cassettePaths opt.Version = none →
          (cassetteStep x rnr vt opt w).1.2 =
            some ("cassettes not fetched for version " ++ x.versionString opt.Version))) ∧
      ((∀ e ∈ (Run x rnr ro vt opt (World.start s)).2.2.events, e.isRemoveAll = false) ∧
        (Run x rnr ro vt opt (World.start s)).2.1.cassettePaths = vt.cassettePaths ∧
        (mapGet vt.cassettePaths opt.Version = none →
          (∃ err, (Run x rnr ro vt opt (World.start s)).1.2 = some err) ∧
          ∀ e ∈ (Run x rnr ro vt opt (World.start s)).2.2.events, e.isTestRun = false)) ∧
      ((∀ e ∈ (RunParallel x rnr ro vt opt (World.start s)).2.2.events,
          e.isRemoveAll = false) ∧
        (RunParallel x rnr ro vt opt (World.start s)).2.1.cassettePaths = vt.cassettePaths ∧
        (mapGet vt.cassettePaths opt.Version = none →
          (∃ err, (RunParallel x rnr ro vt opt (World.start s)).1.2 = some err) ∧
          ∀ e ∈ (RunParallel x rnr ro vt opt (World.start s)).2.2.events,
            e.isTestRun = false))) := by
  constructor
  · intro hmode
    refine ⟨fun w => cassetteStep_recording x rnr vt opt w hmode, ?_, ?_⟩
    · intro e he ht
      rw [Run_eq_callWith] at he ⊢
      exact callWith_recording _ (setupRun_outcome x rnr vt opt (World.start s))
        (fun vt2 ctx w3 => by
          obtain ⟨l, hl, -⟩ := testAndLog_events x rnr ro vt2 opt.Mode ctx w3
          exact ⟨l, hl⟩) hmode e he ht
    · intro e he ht
      rw [RunParallel_eq_callWith] at he ⊢
      exact callWith_recording _ (setupRunParallel_outcome x rnr vt opt (World.start s))
        (fun vt2 ctx w3 => by
          obtain ⟨l, hl, -⟩ := fanOutAndLog_events x rnr ro vt2 opt.Mode opt.Tests ctx w3
          exact ⟨l, hl⟩) hmode e he ht
  · intro hmode
    refine ⟨fun w => ?_, ?_, ?_⟩
    · obtain ⟨h1, h2⟩ := cassetteStep_replaying x rnr vt opt w hmode
      refine ⟨h1, fun hnone => ?_⟩
      rw [h2, hnone]
    · rw [Run_eq_callWith]
      exact callWith_replaying _ (setupRun_outcome x rnr vt opt (World.start s))
        (fun vt2 ctx w3 => by
          obtain ⟨l, hl, hq⟩ := testAndLog_events x rnr ro vt2 opt.Mode ctx w3
          exact ⟨l, hl, fun e he => (hq e he).1⟩) hmode
    · rw [RunParallel_eq_callWith]
      exact callWith_replaying _ (setupRunParallel_outcome x rnr vt opt (World.start s))
        (fun vt2 ctx w3 => by
          obtain ⟨l, hl, hq⟩ := fanOutAndLog_events x rnr ro vt2 opt.Mode opt.Tests ctx w3
          exact ⟨l, hl, fun e he => (hq e he).1⟩) hmode


/-- Witness of C8 (amended): a recording run of the examples registers the cassette path
before its child process, and a replaying run without fetched cassettes returns
an error. -/
theorem cassetteStep_by_mode_witness :
    mapGet (Run demoExternals simRunner RangeOrder.insertion demoTester
        ⟨Mode.Recording, DemoVersion.ga, ["./google"], []⟩
        (World.start ⟨[("base/cassettes/ga/old.yaml", "x")], [], "ok", none⟩)).2.1.cassettePaths
      DemoVersion.ga = some "base/cassettes/ga" ∧
    ∃ err, (Run demoExternals simRunner RangeOrder.insertion
        { demoTester with cassettePaths := [] }
        ⟨Mode.Replaying, DemoVersion.ga, ["./google"], []⟩
        (World.start ⟨[], [], "ok", none⟩)).1.2 = some err :=
  ⟨(((cassetteStep_by_mode demoExternals simRunner RangeOrder.insertion demoTester
      ⟨Mode.Recording, DemoVersion.ga, ["./google"], []⟩
      ⟨[("base/cassettes/ga/old.yaml", "x")], [], "ok", none⟩).1 rfl).2.1
      (Event.Run "go" (runArgs ["./google"])
        (some (childEnv demoExternals RangeOrder.insertion demoTester Mode.Recording
          "base/cassettes/ga" (toString accTestParallelism) "./google"
          "base/testlogs/recording/ga")) "ok" none)
      (by decide) (by decide)).2,
    ((((cassetteStep_by_mode demoExternals simRunner RangeOrder.insertion
      { demoTester with cassettePaths := [] }
      ⟨Mode.Replaying, DemoVersion.ga, ["./google"], []⟩
      ⟨[], [], "ok", none⟩).2 rfl).2.1).2.2 (by decide)).1⟩

theorem echoLine_visible {ev : String} (h : mapGet safeToLogTable ev = some true)
    (val : String) : echoLine ev val = ev ++ "=" ++ val ++ "\n" := by
  have : safeToLog ev = true := by
    unfold safeToLog
    rw [h]
    rfl
  simp [echoLine, this]

theorem echoLine_congr {env1 env2 : List (String × String)}
    (hvals : ∀ ev, mapGet safeToLogTable ev = some true → mapGet env1 ev = mapGet env2 ev)
    (k : String) :
    echoLine k ((mapGet env1 k).getD "") = echoLine k ((mapGet env2 k).getD "") := by
  by_cases h : mapGet safeToLogTable k = some true
  · rw [hvals k h]
  · rw [echoLine_hidden h, echoLine_hidden h]

theorem echoLines_perm (ro ro2 : RangeOrder) {env1 env2 : List (String × String)}
    (hkeys : (env1.map Prod.fst).Perm (env2.map Prod.fst))
    (hvals : ∀ ev, mapGet safeToLogTable ev = some true → mapGet env1 ev = mapGet env2 ev) :
    ((ro.iter (env1.map Prod.fst)).map (fun k => echoLine k ((mapGet env1 k).getD ""))).Perm
      ((ro2.iter (env2.map Prod.fst)).map (fun k => echoLine k ((mapGet env2 k).getD ""))) := by
  have e : (ro.iter (env1.map Prod.fst)).map (fun k => echoLine k ((mapGet env1 k).getD "")) =
      (ro.iter (env1.map Prod.fst)).map (fun k => echoLine k ((mapGet env2 k).getD "")) :=
    List.map_congr_left (fun k _ => echoLine_congr hvals k)
  rw [e]
  exact (((ro.perm _).trans hkeys).trans (ro2.perm _).symm).map _

theorem runEcho_congr (ro ro2 : RangeOrder) {env1 env2 : List (String × String)}
    (hiter : ro.iter (env1.map Prod.fst) = ro2.iter (env2.map Prod.fst))
    (hvals : ∀ ev, mapGet safeToLogTable ev = some true → mapGet env1 ev = mapGet env2 ev)
    (args : List String) : runEcho ro env1 args = runEcho ro2 env2 args := by
  unfold runEcho
  rw [printedEnv_eq_join, printedEnv_eq_join, hiter]
  have e : (ro2.iter (env2.map Prod.fst)).map (fun k => echoLine k ((mapGet env1 k).getD "")) =
      (ro2.iter (env2.map Prod.fst)).map (fun k => echoLine k ((mapGet env2 k).getD "")) :=
    List.map_congr_left (fun k _ => echoLine_congr hvals k)
  rw [e]

theorem Run_prints_before_launch {σ V : Type} [DecidableEq V] (x : Externals V)
    (rnr : ExecRunner σ) (ro : RangeOrder) (vt : Tester V) (opt : RunOptions V) (s : σ)
    (name : String) (args : List String) (env : List (String × String)) (out : String)
    (err : Option Error)
    (h : Event.Run name args (some env) out err ∈
      (Run x rnr ro vt opt (World.start s)).2.2.events) :
    ∃ pre post, (Run x rnr ro vt opt (World.start s)).2.2.events =
      pre ++ [Event.Print (runEcho ro env args), Event.Run name args (some env) out err] ++
        post := by
  obtain ⟨l, hl, hq⟩ := (setupRun_outcome x rnr vt opt (World.start s)).events
  rcases hs : setupRun x rnr vt opt (World.start s) with ⟨_ | ctx, vt2, w3⟩
  · rw [hs] at hl
    rw [Run_of_error hs] at h
    simp only [World.start, List.nil_append] at hl h
    rw [hl] at h
    have := hq _ h
    simp [Event.isSetup] at this
  · rw [hs] at hl
    rw [Run_of_ok hs] at h ⊢
    simp only [World.start, List.nil_append] at hl h ⊢
    have hnot : Event.Run name args (some env) out err ∉ w3.events := by
      intro h2
      rw [hl] at h2
      have := hq _ h2
      simp [Event.isSetup] at this
    obtain ⟨o, testErr, s2, ⟨e, ht⟩ | ⟨previous, rerr, werr, ht⟩⟩ :=
      testAndLog_spec x rnr ro vt2 opt.Mode ctx w3
    · rw [ht] at h ⊢
      simp only [List.mem_append, List.mem_cons, List.mem_singleton, List.not_mem_nil,
        or_false] at h
      rcases h with h | h | h | h
      · exact absurd h hnot
      · cases h
      · simp only [Event.Run.injEq, Option.some.injEq] at h
        obtain ⟨rfl, rfl, rfl, rfl, rfl⟩ := h
        exact ⟨w3.events, [Event.PopDir (some e)], by simp⟩
      · cases h
    · rw [ht] at h ⊢
      simp only [List.mem_append, List.mem_cons, List.mem_singleton, List.not_mem_nil,
        or_false] at h
      rcases h with h | h | h | h | h | h
      · exact absurd h hnot
      · cases h
      · simp only [Event.Run.injEq, Option.some.injEq] at h
        obtain ⟨rfl, rfl, rfl, rfl, rfl⟩ := h
        exact ⟨w3.events,
          [Event.PopDir none,
            Event.ReadFile (x.join [vt2.baseDir, "testlogs", opt.Mode.Lower ++ "_test.log"])
              previous rerr,
            Event.WriteFile (x.join [vt2.baseDir, "testlogs", opt.Mode.Lower ++ "_test.log"])
              (appendLog previous (loggedOutput opt.Mode out err)) werr], by simp⟩
      · cases h
      · cases h
      · cases h

/-- C9, as stated, fails: the two environments differ in the value of the
hidden variable `SA_KEY` only, and the two echoes differ, because the lines come
in the order in which the runtime visits the map, here first to last in one run
and last to first in the other; the same holds for what two runs of `Run`
print, whose testers differ in the value of `SA_KEY` only. -/
theorem runEcho_order_dependent :
    runEcho RangeOrder.insertion [("GOPATH", "/go"), ("SA_KEY", "one")] ["test"] =
      "Running go:\n\tenv:\nGOPATH=/go\nSA_KEY={hidden}\n\n\targs:\ntest\n" ∧
    runEcho RangeOrder.reversed [("GOPATH", "/go"), ("SA_KEY", "two")] ["test"] =
      "Running go:\n\tenv:\nSA_KEY={hidden}\nGOPATH=/go\n\n\targs:\ntest\n" ∧
    (Run demoExternals simRunner RangeOrder.insertion demoTester
        ⟨Mode.Replaying, DemoVersion.ga, ["./google"], []⟩
        (World.start ⟨[], [], "ok", none⟩)).2.2.events.filter Event.isPrint ≠
      (Run demoExternals simRunner RangeOrder.reversed
        { demoTester with env := [("GOPATH", "/go"), ("SA_KEY", "other"), ("TF_LOG", "TRACE")] }
        ⟨Mode.Replaying, DemoVersion.ga, ["./google"], []⟩
        (World.start ⟨[], [], "ok", none⟩)).2.2.events.filter Event.isPrint := by
  decide

/-- C9, amended: the echo that `Run` prints right before it launches the child
process is a heading, one line per variable of the environment handed to the
child, in the order in which the runtime visits the map, and the arguments. The
line of a variable whose entry in `safeToLog` is absent or false is
`k={hidden}` whatever its value, the line of a variable marked true is
`k=value`. So two environments with the same keys that differ only in the
values of variables not marked true give the same lines, in the order of each
visit: the same echo when both maps are visited in the same order, the same
lines in another order otherwise. -/
theorem printedEnv_hides (ro : RangeOrder) :
    (∀ env : List (String × String),
      (ro.iter (env.map Prod.fst)).Perm (env.map Prod.fst) ∧
      printedEnv ro env =
        String.join ((ro.iter (env.map Prod.fst)).map
          (fun k => echoLine k ((mapGet env k).getD "")))) ∧
    (∀ ev val : String, mapGet safeToLogTable ev ≠ some true →
      echoLine ev val = ev ++ "={hidden}\n") ∧
    (∀ ev val : String, mapGet safeToLogTable ev = some true →
      echoLine ev val = ev ++ "=" ++ val ++ "\n") ∧
    (∀ (env : List (String × String)) (args : List String),
      runEcho ro env args =
        "Running go:\n\tenv:\n" ++ printedEnv ro env ++ "\n\targs:\n" ++
          String.intercalate " " args ++ "\n") ∧
    (∀ (ro2 : RangeOrder) (env1 env2 : List (String × String)),
      (env1.map Prod.fst).Perm (env2.map Prod.fst) →
      (∀ ev, mapGet safeToLogTable ev = some true → mapGet env1 ev = mapGet env2 ev) →
      ((ro.iter (env1.map Prod.fst)).map
          (fun k => echoLine k ((mapGet env1 k).getD ""))).Perm
        ((ro2.iter (env2.map Prod.fst)).map
          (fun k => echoLine k ((mapGet env2 k).getD ""))) ∧
      (ro.iter (env1.map Prod.fst) = ro2.iter (env2.map Prod.fst) →
        ∀ args, runEcho ro env1 args = runEcho ro2 env2 args)) ∧
    (∀ (σ V : Type) [DecidableEq V] (x : Externals V) (rnr : ExecRunner σ) (vt : Tester V)
      (opt : RunOptions V) (s : σ),
      (∀ (name : String) (args : List String) (env : List (String × String)) (out : String)
          (err : Option Error),
        Event.Run name args (some env) out err ∈
          (Run x rnr ro vt opt (World.start s)).2.2.events →
        ∃ pre post, (Run x rnr ro vt opt (World.start s)).2.2.events =
          pre ++ [Event.Print (runEcho ro env args),
            Event.Run name args (some env) out err] ++ post) ∧
      (∀ text : String,
        Event.Print text ∈ (Run x rnr ro vt opt (World.start s)).2.2.events →
        ∃ args env out err,
          Event.Run "go" args (some env) out err ∈
            (Run x rnr ro vt opt (World.start s)).2.2.events ∧
          text = runEcho ro env args)) := by
  refine ⟨fun env => ⟨ro.perm _, printedEnv_eq_join ro env⟩,
    fun ev val h => echoLine_hidden h val, fun ev val h => echoLine_visible h val,
    fun env args => rfl,
    fun ro2 env1 env2 hk hv =>
      ⟨echoLines_perm ro ro2 hk hv, fun hi args => runEcho_congr ro ro2 hi hv args⟩, ?_⟩
  intro σ V _ x rnr vt opt s
  refine ⟨fun name args env out err h =>
    Run_prints_before_launch x rnr ro vt opt s name args env out err h, ?_⟩
  intro text hp
  obtain ⟨l, hl, hq⟩ := (setupRun_outcome x rnr vt opt (World.start s)).events
  rcases hs : setupRun x rnr vt opt (World.start s) with ⟨_ | ctx, vt2, w3⟩
  · rw [hs] at hl
    rw [Run_of_error hs] at hp
    simp only [World.start, List.nil_append] at hl hp
    rw [hl] at hp
    have := hq _ hp
    simp [Event.isSetup] at this
  · rw [hs] at hl
    rw [Run_of_ok hs] at hp ⊢
    simp only [World.start, List.nil_append] at hl hp ⊢
    have hnot : Event.Print text ∉ w3.events := by
      intro h
      rw [hl] at h
      have := hq _ h
      simp [Event.isSetup] at this
    obtain ⟨out, testErr, s2, ⟨err, ht⟩ | ⟨previous, rerr, werr, ht⟩⟩ :=
      testAndLog_spec x rnr ro vt2 opt.Mode ctx w3
    · rw [ht] at hp ⊢
      simp only [List.mem_append, List.mem_cons, List.mem_singleton, List.not_mem_nil,
        or_false, Event.Print.injEq] at hp
      rcases hp with h | h | h | h
      · exact absurd h hnot
      · exact ⟨_, _, out, testErr, by simp, h⟩
      · cases h
      · cases h
    · rw [ht] at hp ⊢
      simp only [List.mem_append, List.mem_cons, List.mem_singleton, List.not_mem_nil,
        or_false, Event.Print.injEq] at hp
      rcases hp with h | h | h | h | h | h
      · exact absurd h hnot
      · exact ⟨_, _, out, testErr, by simp, h⟩
      · cases h
      · cases h
      · cases h
      · cases h

/-- Witness of C9 (amended): two environments that differ in the value of
`SA_KEY` only, visited in the same order, give the same echo; the line of
`SA_KEY` is hidden and the line of `GOPATH` shows its value. -/
theorem printedEnv_hides_witness :
    runEcho RangeOrder.reversed [("GOPATH", "/go"), ("SA_KEY", "one")] ["test"] =
      runEcho RangeOrder.reversed [("GOPATH", "/go"), ("SA_KEY", "two")] ["test"] ∧
    echoLine "SA_KEY" "one" = "SA_KEY" ++ "={hidden}\n" ∧
    echoLine "GOPATH" "/go" = "GOPATH" ++ "=" ++ "/go" ++ "\n" :=
  ⟨((printedEnv_hides RangeOrder.reversed).2.2.2.2.1 RangeOrder.reversed
      [("GOPATH", "/go"), ("SA_KEY", "one")] [("GOPATH", "/go"), ("SA_KEY", "two")]
      (by decide)
      (fun ev h => by
        by_cases e : ev = "SA_KEY"
        · subst e
          revert h
          decide
        · simp [mapGet, e, Ne.symm e])).2 (by decide) ["test"],
    (printedEnv_hides RangeOrder.reversed).2.1 "SA_KEY" "one" (by decide),
    (printedEnv_hides RangeOrder.reversed).2.2.1 "GOPATH" "/go" (by decide)⟩


/-- C10, as stated, fails: a tester made by `NewTester` from an environment that
holds `GOOGLE_APPLICATION_CREDENTIALS` and no `SA_KEY` has an empty `saKeyPath`,
and the environment of its child process holds `GOOGLE_APPLICATION_CREDENTIALS`,
copied from `vt.env` by the last loop. -/
theorem childEnv_credentials_from_env :
    (@NewTester SimState DemoVersion simRunner
        [("GOOGLE_APPLICATION_CREDENTIALS", "/tmp/key.json")] "cassettes" "logs"
        (World.start ⟨[], [], "", none⟩)).1.1.map (fun vt => vt.saKeyPath) = some "" ∧
    (@NewTester SimState DemoVersion simRunner
        [("GOOGLE_APPLICATION_CREDENTIALS", "/tmp/key.json")] "cassettes" "logs"
        (World.start ⟨[], [], "", none⟩)).1.1.map
      (fun vt => mapGet (childEnv demoExternals RangeOrder.insertion vt Mode.Replaying
        "base/cassettes/ga" "32" "./google" "base/testlogs/replaying/ga")
        "GOOGLE_APPLICATION_CREDENTIALS") = some (some "/tmp/key.json") := by
  decide

/-- C10, amended: the environment of the child process maps every key of
`vt.env` to its value in `vt.env`, also a key that the tester sets itself; a key
absent from `vt.env` has its built-in value; `GOOGLE_APPLICATION_CREDENTIALS` is
present only if `saKeyPath` is not empty or `vt.env` itself holds that key; and
this is the environment of every `go test` launch of `Run` and of
`RunParallel`. -/
theorem childEnv_overrides {V : Type} [DecidableEq V] (x : Externals V) (ro : RangeOrder)
    (vt : Tester V) (mode : Mode) (cassettePath parallelism testDirectory logPath : String) :
    (∀ k v, mapGet vt.env k = some v →
      mapGet (childEnv x ro vt mode cassettePath parallelism testDirectory logPath) k =
        some v) ∧
    (∀ k, mapGet vt.env k = none →
      mapGet (childEnv x ro vt mode cassettePath parallelism testDirectory logPath) k =
        mapGet (withCredentials x vt
          (builtinEnv x vt mode cassettePath parallelism testDirectory logPath)) k) ∧
    (mapGet (childEnv x ro vt mode cassettePath parallelism testDirectory logPath)
        "GOOGLE_APPLICATION_CREDENTIALS" ≠ none ↔
      vt.saKeyPath ≠ "" ∨ mapGet vt.env "GOOGLE_APPLICATION_CREDENTIALS" ≠ none) ∧
    (∀ (σ : Type) (rnr : ExecRunner σ) (opt : RunOptions V) (s : σ),
      ∀ e ∈ (Run x rnr ro vt opt (World.start s)).2.2.events, e.isTestRun = true →
        ∃ (ctx : RunContext) (out : String) (err : Option Error), e = Event.Run "go" (runArgs ctx.testDirs)
          (some (childEnv x ro vt opt.Mode ctx.cassettePath (toString accTestParallelism)
            (String.intercalate " " ctx.testDirs) ctx.logPath)) out err) ∧
    (∀ (σ : Type) (rnr : ExecRunner σ) (opt : RunOptions V) (s : σ),
      ∀ e ∈ (RunParallel x rnr ro vt opt (World.start s)).2.2.events, e.isTestRun = true →
        ∃ (ctx : RunContext) (testDir test out : String) (err : Option Error), e = Event.Run "go" (parallelArgs testDir test)
          (some (childEnv x ro vt opt.Mode ctx.cassettePath "1" testDir ctx.logPath))
          out err) := by
  refine ⟨?_, ?_, ?_, ?_, ?_⟩
  · intro k v h
    rw [mapGet_childEnv, h]
  · intro k h
    rw [mapGet_childEnv, h]
  · rw [mapGet_childEnv]
    cases hv : mapGet vt.env "GOOGLE_APPLICATION_CREDENTIALS" with
    | some v => simp
    | none =>
      simp only [ne_eq, not_true_eq_false, or_false]
      unfold withCredentials
      split_ifs with hk
      · simp [mapGet_mapSet_self, hk]
      · have : mapGet (builtinEnv x vt mode cassettePath parallelism testDirectory logPath)
            "GOOGLE_APPLICATION_CREDENTIALS" = none := by
          simp [builtinEnv, mapGet]
        simp [this, hk]
  · intro σ rnr opt s e he ht
    rw [Run_eq_callWith] at he
    refine callWith_testRun _ (setupRun_outcome x rnr vt opt (World.start s))
      (fun e => ∃ (ctx : RunContext) (out : String) (err : Option Error), e = Event.Run "go" (runArgs ctx.testDirs)
          (some (childEnv x ro vt opt.Mode ctx.cassettePath (toString accTestParallelism)
            (String.intercalate " " ctx.testDirs) ctx.logPath)) out err)
      ?_ e he ht
    intro vt2 ctx w3 t1 t2 t3
    obtain ⟨l, hl, hq⟩ := testAndLog_events x rnr ro vt2 opt.Mode ctx w3
    refine ⟨l, hl, fun e2 he2 ht2 => ?_⟩
    obtain ⟨out, err, rfl⟩ := (hq e2 he2).2 ht2
    exact ⟨ctx, out, err, by rw [childEnv_congr x ro t1 t2 t3]⟩
  · intro σ rnr opt s e he ht
    rw [RunParallel_eq_callWith] at he
    refine callWith_testRun _ (setupRunParallel_outcome x rnr vt opt (World.start s))
      (fun e => ∃ (ctx : RunContext) (testDir test out : String) (err : Option Error), e = Event.Run "go" (parallelArgs testDir test)
          (some (childEnv x ro vt opt.Mode ctx.cassettePath "1" testDir ctx.logPath)) out err)
      ?_ e he ht
    intro vt2 ctx w3 t1 t2 t3
    obtain ⟨l, hl, hq⟩ := fanOutAndLog_events x rnr ro vt2 opt.Mode opt.Tests ctx w3
    refine ⟨l, hl, fun e2 he2 ht2 => ?_⟩
    obtain ⟨testDir, test, out, err, -, rfl⟩ := (hq e2 he2).2 ht2
    exact ⟨ctx, testDir, test, out, err, by rw [childEnv_congr x ro t1 t2 t3]⟩

/-- Witness of C10 (amended): the tester of the examples sets `TF_LOG` to
`TRACE` in its environment, and the child process gets `TRACE`, not `DEBUG`. -/
theorem childEnv_overrides_witness :
    mapGet (childEnv demoExternals RangeOrder.reversed demoTester Mode.Replaying
      "base/cassettes/ga" "32" "./google" "base/testlogs/replaying/ga") "TF_LOG" =
      some "TRACE" ∧
    mapGet (childEnv demoExternals RangeOrder.reversed demoTester Mode.Replaying
      "base/cassettes/ga" "32" "./google" "base/testlogs/replaying/ga") "VCR_MODE" =
      some "REPLAYING" :=
  ⟨(childEnv_overrides demoExternals RangeOrder.reversed demoTester Mode.Replaying
      "base/cassettes/ga" "32" "./google" "base/testlogs/replaying/ga").1 "TF_LOG" "TRACE"
      (by decide),
    ((childEnv_overrides demoExternals RangeOrder.reversed demoTester Mode.Replaying
      "base/cassettes/ga" "32" "./google" "base/testlogs/replaying/ga").2.1 "VCR_MODE"
      (by decide)).trans (by decide)⟩


/-! ## The cumulative log of `Run` -/

theorem callWith_error_no_PopDir {σ V : Type} [DecidableEq V] {x : Externals V}
    {rnr : ExecRunner σ} {vt : Tester V} {opt : RunOptions V} {s : σ}
    {r : Except Error RunContext × Tester V × World σ}
    (launch : Tester V → RunContext → World σ → (Result × Option Error) × World σ)
    (hset : SetupOutcome x rnr vt opt (World.start s) r) {err : Error}
    (herr : r.1 = Except.error err) :
    (callWith r launch).1.2 = some err ∧
    ∀ e ∈ (callWith r launch).2.2.events, e.isPopDir = false := by
  obtain ⟨l, hl, hq⟩ := hset.events
  obtain ⟨rr, vt2, w3⟩ := r
  simp only at herr
  subst herr
  simp only [callWith, World.start, List.nil_append] at hl ⊢
  refine ⟨trivial, fun e he => ?_⟩
  rw [hl] at he
  have := hq e he
  cases e <;> simp [Event.isSetup, Event.isPopDir] at this ⊢

/-- Whenever the set-up of `Run` or of `RunParallel` ends with an error, the
call returns that error and never calls `PopDir`, also when `PushDir` had
succeeded before. -/
theorem setup_error_never_pops {σ V : Type} [DecidableEq V] (x : Externals V)
    (rnr : ExecRunner σ) (ro : RangeOrder) (vt : Tester V) (opt : RunOptions V) (s : σ) :
    (∀ err, (setupRun x rnr vt opt (World.start s)).1 = Except.error err →
      (Run x rnr ro vt opt (World.start s)).1.2 = some err ∧
      ∀ e ∈ (Run x rnr ro vt opt (World.start s)).2.2.events, e.isPopDir = false) ∧
    (∀ err, (setupRunParallel x rnr vt opt (World.start s)).1 = Except.error err →
      (RunParallel x rnr ro vt opt (World.start s)).1.2 = some err ∧
      ∀ e ∈ (RunParallel x rnr ro vt opt (World.start s)).2.2.events, e.isPopDir = false) := by
  constructor
  · intro err herr
    rw [Run_eq_callWith]
    exact callWith_error_no_PopDir _ (setupRun_outcome x rnr vt opt (World.start s)) herr
  · intro err herr
    rw [RunParallel_eq_callWith]
    exact callWith_error_no_PopDir _ (setupRunParallel_outcome x rnr vt opt (World.start s)) herr

/-- C12, the code at three failing inputs and at one run that succeeds, each
starting with an empty directory stack. (1) `Run` in Replaying mode without
fetched cassettes: `PushDir` of the repository succeeds, the call returns
`cassettes not fetched` without `PopDir`, and the stack still holds the
repository. (2) The same for `RunParallel`. (3) `Run` with no test directory and
a failing `go list`: the error of the discovery is returned, again with the
repository left on the stack. (4) A run that reaches the child process calls
`PopDir`, and the stack is empty again. -/
theorem Run_error_leaves_repo_on_stack :
    ((Run demoExternals simRunner RangeOrder.insertion { demoTester with cassettePaths := [] }
          ⟨Mode.Replaying, DemoVersion.ga, ["./google"], []⟩
          (World.start ⟨[], [], "ok", none⟩)).1.2 =
        some "cassettes not fetched for version ga" ∧
      (Run demoExternals simRunner RangeOrder.insertion { demoTester with cassettePaths := [] }
          ⟨Mode.Replaying, DemoVersion.ga, ["./google"], []⟩
          (World.start ⟨[], [], "ok", none⟩)).2.2.events =
        [Event.Mkdir "base/testlogs/replaying/ga" none, Event.PushDir "repo" none] ∧
      (Run demoExternals simRunner RangeOrder.insertion { demoTester with cassettePaths := [] }
          ⟨Mode.Replaying, DemoVersion.ga, ["./google"], []⟩
          (World.start ⟨[], [], "ok", none⟩)).2.2.state.dirs = ["repo"]) ∧
    ((RunParallel demoExternals simRunner RangeOrder.insertion
          { demoTester with cassettePaths := [] }
          ⟨Mode.Replaying, DemoVersion.ga, ["./google"], ["TestAccFoo"]⟩
          (World.start ⟨[], [], "ok", none⟩)).1.2 =
        some "cassettes not fetched for version ga" ∧
      (RunParallel demoExternals simRunner RangeOrder.insertion
          { demoTester with cassettePaths := [] }
          ⟨Mode.Replaying, DemoVersion.ga, ["./google"], ["TestAccFoo"]⟩
          (World.start ⟨[], [], "ok", none⟩)).2.2.events =
        [Event.Mkdir "base/testlogs/replaying/ga" none,
          Event.Mkdir "base/testlogs/replaying_build" none, Event.PushDir "repo" none] ∧
      (RunParallel demoExternals simRunner RangeOrder.insertion
          { demoTester with cassettePaths := [] }
          ⟨Mode.Replaying, DemoVersion.ga, ["./google"], ["TestAccFoo"]⟩
          (World.start ⟨[], [], "ok", none⟩)).2.2.state.dirs = ["repo"]) ∧
    ((Run demoExternals simRunnerNoList RangeOrder.insertion demoTester
          ⟨Mode.Replaying, DemoVersion.ga, [], []⟩
          (World.start ⟨[], [], "ok", none⟩)).1.2 = some "go list failed" ∧
      (Run demoExternals simRunnerNoList RangeOrder.insertion demoTester
          ⟨Mode.Replaying, DemoVersion.ga, [], []⟩
          (World.start ⟨[], [], "ok", none⟩)).2.2.events =
        [Event.Mkdir "base/testlogs/replaying/ga" none, Event.PushDir "repo" none,
          Event.Run "go" ["list", "./..."] none "" (some "go list failed")] ∧
      (Run demoExternals simRunnerNoList RangeOrder.insertion demoTester
          ⟨Mode.Replaying, DemoVersion.ga, [], []⟩
          (World.start ⟨[], [], "ok", none⟩)).2.2.state.dirs = ["repo"]) ∧
    ((Run demoExternals simRunner RangeOrder.insertion demoTester
          ⟨Mode.Replaying, DemoVersion.ga, ["./google"], []⟩
          (World.start ⟨[], [], "ok", none⟩)).1.2 = none ∧
      Event.PopDir none ∈
        (Run demoExternals simRunner RangeOrder.insertion demoTester
          ⟨Mode.Replaying, DemoVersion.ga, ["./google"], []⟩
          (World.start ⟨[], [], "ok", none⟩)).2.2.events ∧
      (Run demoExternals simRunner RangeOrder.insertion demoTester
          ⟨Mode.Replaying, DemoVersion.ga, ["./google"], []⟩
          (World.start ⟨[], [], "ok", none⟩)).2.2.state.dirs = []) := by
  decide

end Vcr
